import Mathlib

/-!
Verification development for the minestat Minecraft server status checker
(source: src/Python/minestat/__init__.py).

The Python module is shallowly embedded: every pure computation (payload
parsers, the varint codec, the MOTD formatter) is a Lean function translated
from the source line by line, and every network interaction is driven by an
explicit environment value (an oracle recording the outcome of each socket
operation a query performs: the connect result, each receive result, and the
decoded payloads delivered).  Python exceptions are modelled with `Except`:
a result `Except.error e` of an embedded function corresponds to the Python
exception `e` propagating out of that code (and, for the entry point, out of
`MineStat.__init__` to the caller).  Machine-level details that no claim
depends on are noted in doc comments where they are abstracted.
-/

/-- The ConnStatus enum of the source: possible connection states
(SUCCESS, CONNFAIL, TIMEOUT, UNKNOWN). -/
inductive ConnStatus
  | SUCCESS
  | CONNFAIL
  | TIMEOUT
  | UNKNOWN
deriving DecidableEq, Repr

/-- The SlpProtocols enum of the source: the query protocol selection. -/
inductive SlpProtocols
  | ALL
  | BEDROCK_RAKNET
  | JSON
  | EXTENDED_LEGACY
  | LEGACY
  | BETA
deriving DecidableEq, Repr

/-- Identifies one of the five protocol codecs; used to record which codecs a
query actually invoked (instrumentation for the orchestrator claims, not part
of the Python state). -/
inductive Codec
  | bedrock
  | legacy
  | beta
  | extLegacy
  | json
deriving DecidableEq, Repr

/-- Python exceptions that the embedded code can raise (that is, that the
source code can let propagate). -/
inductive PyExn
  | valueError
  | keyError
  | structError
  | sockTimeout
  | sockAborted
  | sockOsError
deriving DecidableEq, Repr

/-- Outcome of a failed socket receive operation.  The source maps these
uniformly wherever it catches them: socket.timeout to TIMEOUT,
ConnectionResetError or ConnectionAbortedError to UNKNOWN, and any other
OSError to CONNFAIL. -/
inductive RecvErr
  | timeout
  | aborted
  | osError
deriving DecidableEq, Repr

/-- The Python exception corresponding to a receive failure when it is raised
outside of any try block. -/
def RecvErr.toExn : RecvErr → PyExn
  | .timeout => .sockTimeout
  | .aborted => .sockAborted
  | .osError => .sockOsError

/-- Outcome of socket.connect: success (with the measured latency in
milliseconds), socket.timeout, or OSError. -/
inductive ConnectR
  | ok (latency : Int)
  | timeout
  | osError
deriving DecidableEq, Repr

/-- Outcome of a receive operation: the received data, or a failure. -/
inductive Recv (α : Type)
  | ok (a : α)
  | err (e : RecvErr)
deriving DecidableEq, Repr

/-- The mutable attributes of the Python MineStat object, in source order
(lines 153-190 of the source). -/
structure MineStat where
  address : String
  port : Nat
  online : Bool
  version : Option String
  motd : Option String
  stripped_motd : Option String
  current_players : Option Int
  max_players : Option Int
  latency : Option Int
  timeout : Nat
  slp_protocol : Option SlpProtocols
  favicon_b64 : Option String
  favicon : Option String
  gamemode : Option String
  connection_status : Option ConnStatus
deriving DecidableEq, Repr

/-- The freshly initialised MineStat state: all result fields unset, as set up
by the attribute initialisers in MineStat.__init__ before any query runs. -/
def initState (address : String) (port timeout : Nat) : MineStat :=
  { address := address, port := port, online := false, version := none,
    motd := none, stripped_motd := none, current_players := none,
    max_players := none, latency := none, timeout := timeout,
    slp_protocol := none, favicon_b64 := none, favicon := none,
    gamemode := none, connection_status := none }

/-- A fixed dummy state, used only to define the state-independent status of
a codec attempt. -/
def dummySt : MineStat := initState "" 0 0

/-- Splits a character list at every occurrence of the separator, keeping
empty pieces; mirrors Python str.split with an explicit separator
(the empty string splits to a single empty piece). -/
def splitOnChar (sep : Char) : List Char → List (List Char)
  | [] => [[]]
  | c :: rest =>
    if c = sep then [] :: splitOnChar sep rest
    else
      match splitOnChar sep rest with
      | [] => [[c]]
      | g :: gs => (c :: g) :: gs

/-- Python str.split with a one-character separator. -/
def pySplit (s : String) (sep : Char) : List String :=
  (splitOnChar sep s.toList).map fun cs => String.mk cs

/-- Accumulates the value of a list of decimal digit characters. -/
def digitsVal (ds : List Char) : Nat :=
  ds.foldl (fun n c => 10 * n + (c.toNat - 48)) 0

/-- Models Python int(s) on a string: an optional sign followed by one or
more ASCII decimal digits; `none` where Python raises ValueError.  (Python
int additionally strips surrounding whitespace and allows underscores
between digits; no payload in this development uses those forms.) -/
def pyInt (s : String) : Option Int :=
  match s.toList with
  | [] => none
  | '-' :: ds =>
    if ds ≠ [] ∧ ds.all (·.isDigit) then some (-(digitsVal ds : Int)) else none
  | '+' :: ds =>
    if ds ≠ [] ∧ ds.all (·.isDigit) then some (digitsVal ds : Int) else none
  | ds =>
    if ds.all (·.isDigit) then some (digitsVal ds : Int) else none

/-- Models Python int(s) where the source calls it directly: a failed parse
is the ValueError exception. -/
def pyIntE (s : String) : Except PyExn Int :=
  match pyInt s with
  | some n => .ok n
  | none => .error .valueError

/-- Character-list worker for motd_strip_formatting on plain strings: the
regex substitution re.sub of the pattern (section sign followed by any one
character) by the empty string.  The regex dot does not match a newline, in
which case the section sign is kept and scanning continues at the next
character. -/
def stripChars : List Char → List Char
  | [] => []
  | '§' :: c :: rest =>
    if c = '\n' then '§' :: stripChars (c :: rest) else stripChars rest
  | c :: rest => c :: stripChars rest

/-- MineStat.motd_strip_formatting restricted to the plain-string case
(the chat-component dictionary case is exercised by no claim and is applied
in this development only to plain strings). -/
def motd_strip_formatting (s : String) : String := String.mk (stripChars s.toList)

/-- MineStat._pack_varint: packs a non-negative integer into varint bytes,
7 data bits per byte low-to-high, with the continuation bit 0x80 set on every
byte except the last.  The source loop computes data AND 0x7F (here data mod
128, an equal value) and shifts data right by 7 bits (here division by 128),
emitting bytes until data is zero; the OR with 0x80 on a value below 128 is
addition of 128. -/
def pack_varint (data : Nat) : List Nat :=
  let byte := data % 128
  let rest := data / 128
  if h : rest = 0 then [byte]
  else (byte + 128) :: pack_varint rest
termination_by data
decreasing_by
  have hd : data ≠ 0 := by
    intro h0
    subst h0
    exact h rfl
  exact Nat.div_lt_self (Nat.pos_of_ne_zero hd) (by norm_num)

/-- Loop body of MineStat._unpack_varint: reads up to 5 bytes from the
stream, accumulating (byte AND 0x7F) shifted left by 7*i, and stops at the
first byte without the continuation bit 0x80 or when the stream is exhausted
(a zero-length recv breaks the loop). -/
def unpackGo : List Nat → Nat → Nat → Nat
  | [], _, data => data
  | b :: rest, i, data =>
    if 5 ≤ i then data
    else
      let acc := data ||| ((b &&& 0x7F) <<< (7 * i))
      if b &&& 0x80 = 0 then acc else unpackGo rest (i + 1) acc

/-- MineStat._unpack_varint, with the socket byte stream modelled as the list
of byte values successive one-byte receives deliver. -/
def unpack_varint (bytes : List Nat) : Nat := unpackGo bytes 0 0

/-- The source loop of _pack_varint run on an arbitrary (possibly negative)
Python integer, with explicit fuel: `none` means the loop has not finished
within the given number of iterations.  Python's right shift by 7 on a
negative int is floor division by 128, which is Euclidean division by 128 on
Lean's Int; the continuation bit is set when the shifted value is positive. -/
def pack_varint_int_fuel : Nat → Int → Option (List Int)
  | 0, _ => none
  | fuel + 1, data =>
    let byte := data % 128
    let rest := data / 128
    let out := byte + (if 0 < rest then 128 else 0)
    if rest = 0 then some [out]
    else (pack_varint_int_fuel fuel rest).map (out :: ·)

/-- Unfolding lemma for pack_varint on a value that fits in one byte. -/
theorem pack_varint_small {d : Nat} (h : d < 128) : pack_varint d = [d] := by
  rw [pack_varint]
  have h0 : d / 128 = 0 := Nat.div_eq_of_lt h
  have h1 : d % 128 = d := Nat.mod_eq_of_lt h
  simp [h0, h1]

/-- Unfolding lemma for pack_varint on a value needing a continuation byte. -/
theorem pack_varint_step {d : Nat} (h : 128 ≤ d) :
    pack_varint d = (d % 128 + 128) :: pack_varint (d / 128) := by
  rw [pack_varint]
  have h0 : d / 128 ≠ 0 := by
    have := Nat.div_le_div_right (c := 128) h
    simp at this
    omega
  simp [h0]

/-- The packing loop emits at least one byte for every input. -/
theorem pack_varint_ne_nil (n : Nat) : pack_varint n ≠ [] := by
  rw [pack_varint]
  split <;> simp

/-- On a non-negative input the fuelled source loop terminates (with any fuel
larger than the input) and computes exactly the total function pack_varint. -/
theorem pack_varint_int_fuel_agrees :
    ∀ (n fuel : Nat), n < fuel →
      pack_varint_int_fuel fuel (n : Int) = some ((pack_varint n).map Int.ofNat) := by
  intro n
  induction n using Nat.strong_induction_on with
  | _ n ih =>
    intro fuel hf
    match fuel, hf with
    | fuel + 1, hf =>
      unfold pack_varint_int_fuel
      have hr : (n : Int) / 128 = ((n / 128 : Nat) : Int) := by omega
      have hb : (n : Int) % 128 = ((n % 128 : Nat) : Int) := by omega
      by_cases h0 : n / 128 = 0
      · have hlt : n < 128 := by omega
        have hz : (n : Int) / 128 = 0 := by omega
        rw [if_pos hz, pack_varint_small hlt]
        have : ¬((0 : Int) < (n : Int) / 128) := by omega
        simp [this, hb, Nat.mod_eq_of_lt hlt]
      · have hge : 128 ≤ n := by
          by_contra hc
          exact h0 (Nat.div_eq_of_lt (by omega))
        have hne : ¬((n : Int) / 128 = 0) := by omega
        have hpos : (0 : Int) < (n : Int) / 128 := by
          rw [hr]
          exact_mod_cast Nat.pos_of_ne_zero h0
        have hrec : pack_varint_int_fuel fuel ((n / 128 : Nat) : Int)
            = some ((pack_varint (n / 128)).map Int.ofNat) := by
          refine ih (n / 128) (Nat.div_lt_self (by omega) (by norm_num)) fuel ?_
          have : n / 128 ≤ n := Nat.div_le_self n 128
          omega
        rw [if_neg hne, if_pos hpos, hr, hrec, pack_varint_step hge]
        simp only [List.map_cons, Option.map_some]
        congr 2

/-- On the input -1 the source loop never terminates: the arithmetic right
shift leaves -1 unchanged, so no amount of fuel completes the loop. -/
theorem pack_varint_int_fuel_neg_one : ∀ fuel : Nat, pack_varint_int_fuel fuel (-1) = none := by
  intro fuel
  induction fuel with
  | zero => rfl
  | succ fuel ih =>
    unfold pack_varint_int_fuel
    have h1 : (-1 : Int) / 128 = -1 := by decide
    have h2 : ¬((-1 : Int) / 128 = 0) := by decide
    simp [h1, h2, ih]

/-- C9: Varint round-trip: for every v in 0, 1, 127, 128, 300, 2^31-1,
unpacking the bytes produced by packing v yields v again, where pack emits 7
data bits per byte low-to-high with the continuation bit 0x80 set on every
byte except the last, and unpack accumulates (byte AND 0x7F) shifted left by
7*i, stopping at the first byte without the continuation bit or after 5
bytes. -/
theorem c9_varint_roundtrip :
    unpack_varint (pack_varint 0) = 0
    ∧ unpack_varint (pack_varint 1) = 1
    ∧ unpack_varint (pack_varint 127) = 127
    ∧ unpack_varint (pack_varint 128) = 128
    ∧ unpack_varint (pack_varint 300) = 300
    ∧ unpack_varint (pack_varint 2147483647) = 2147483647 := by
  have h0 : pack_varint 0 = [0] := by simp [pack_varint_small]
  have h1 : pack_varint 1 = [1] := by simp [pack_varint_small]
  have h127 : pack_varint 127 = [127] := by simp [pack_varint_small]
  have h128 : pack_varint 128 = [128, 1] := by simp [pack_varint_step, pack_varint_small]
  have h300 : pack_varint 300 = [172, 2] := by simp [pack_varint_step, pack_varint_small]
  have hbig : pack_varint 2147483647 = [255, 255, 255, 255, 7] := by
    simp [pack_varint_step, pack_varint_small]
  refine ⟨?_, ?_, ?_, ?_, ?_, ?_⟩
  · rw [h0]; decide
  · rw [h1]; decide
  · rw [h127]; decide
  · rw [h128]; decide
  · rw [h300]; decide
  · rw [hbig]; decide

/-- C10: The varint pack function terminates for every non-negative integer
input: the total function pack_varint agrees with the source loop
(pack_varint_int_fuel) on every natural number, given fuel exceeding the
input, because each iteration strictly shrinks the value by the 7-bit right
shift.  For input 0 it emits exactly the single byte 0x00.  The guarantee is
only for non-negative inputs: on -1 the loop never finishes, whatever the
fuel. -/
theorem c10_pack_varint_terminates :
    pack_varint 0 = [0]
    ∧ (∀ n : Nat, pack_varint n ≠ [])
    ∧ (∀ (n fuel : Nat), n < fuel →
        pack_varint_int_fuel fuel (n : Int) = some ((pack_varint n).map Int.ofNat))
    ∧ (∀ fuel : Nat, pack_varint_int_fuel fuel (-1) = none) := by
  refine ⟨by simp [pack_varint_small], pack_varint_ne_nil, ?_, pack_varint_int_fuel_neg_one⟩
  exact pack_varint_int_fuel_agrees

/-- Witness for C10 at the concrete input 300 with fuel 301. -/
theorem c10_witness :
    pack_varint_int_fuel 301 ((300 : Nat) : Int)
      = some ((pack_varint 300).map Int.ofNat) :=
  c10_pack_varint_terminates.2.2.1 300 301 (by norm_num)

/-- MineStat.__parse_legacy_payload on the decoded payload string (the
internal helper shared by the legacy and extended-legacy codecs).  The
UTF-16BE payload decoding of the raw bytes is abstracted: the environment
delivers the decoded string.  Splits on the NUL character; any field count
other than exactly 6 is UNKNOWN; otherwise the source assigns version (field
2), motd and stripped motd (field 3), then converts fields 4 and 5 with
Python int, which raises ValueError on a non-numeric field, then sets online
and returns SUCCESS. -/
def parse_legacy_payload (st : MineStat) (payload_str : String) :
    Except PyExn (MineStat × ConnStatus) :=
  let payload_list := pySplit payload_str '\x00'
  if payload_list.length ≠ 6 then
    .ok (st, .UNKNOWN)
  else
    let st := { st with
      version := some (payload_list.getD 2 ""),
      motd := some (payload_list.getD 3 ""),
      stripped_motd := some (motd_strip_formatting (payload_list.getD 3 "")) }
    match pyInt (payload_list.getD 4 "") with
    | none => .error .valueError
    | some cur =>
      let st := { st with current_players := some cur }
      match pyInt (payload_list.getD 5 "") with
      | none => .error .valueError
      | some mx =>
        .ok ({ st with max_players := some mx, online := true }, .SUCCESS)

/-- The payload-parsing tail of MineStat.beta_query (source lines 750-776),
on the decoded payload string; factored out of the query function here purely
so the claims can speak about it, with behaviour identical to the inline
code.  Splits on the section sign; fewer than 3 fields is UNKNOWN; otherwise
the source converts the last field (max players) and the second-to-last field
(current players) with Python int, which raises ValueError on a non-numeric
field, rejoins the remaining leading fields with the section sign as the
MOTD, sets the fixed version placeholder and online, and returns SUCCESS.
Python index -1 is index length-1, index -2 is length-2, and the slice
dropping the last two elements is dropLast applied twice. -/
def parse_beta_payload (st : MineStat) (payload_str : String) :
    Except PyExn (MineStat × ConnStatus) :=
  let payload_list := pySplit payload_str '§'
  if payload_list.length < 3 then
    .ok (st, .UNKNOWN)
  else
    match pyInt (payload_list.getD (payload_list.length - 1) "") with
    | none => .error .valueError
    | some mx =>
      let st := { st with max_players := some mx }
      match pyInt (payload_list.getD (payload_list.length - 2) "") with
      | none => .error .valueError
      | some cur =>
        let motd := String.intercalate "§" (payload_list.dropLast.dropLast)
        .ok ({ st with
          current_players := some cur,
          motd := some motd,
          stripped_motd := some (motd_strip_formatting motd),
          version := some ">=1.8b/1.3",
          online := true }, .SUCCESS)

/-- MineStat.__parse_bedrock_payload on the decoded server ID string.  The
source builds a dict by zipping the 12 schema keys with the semicolon-split
fields, so the key for position i is present exactly when i is below the
field count, and a lookup of a missing key raises KeyError.  It sets online
to true first, then reads positions 4 and 5 through Python int (ValueError
on non-numeric fields), then positions 3, 7, 0 for the synthesized version,
position 1 for the MOTD and position 8 for the gamemode, in source order. -/
def parse_bedrock_payload (st : MineStat) (payload_str : String) :
    Except PyExn (MineStat × ConnStatus) :=
  let fields := pySplit payload_str ';'
  let get (i : Nat) : Except PyExn String :=
    if i < fields.length then .ok (fields.getD i "") else .error .keyError
  let st := { st with online := true }
  match get 4 with
  | .error e => .error e
  | .ok curS =>
    match pyInt curS with
    | none => .error .valueError
    | some cur =>
      let st := { st with current_players := some cur }
      match get 5 with
      | .error e => .error e
      | .ok mxS =>
        match pyInt mxS with
        | none => .error .valueError
        | some mx =>
          let st := { st with max_players := some mx }
          match get 3, get 7, get 0 with
          | .error e, _, _ => .error e
          | _, .error e, _ => .error e
          | _, _, .error e => .error e
          | .ok verS, .ok motd2, .ok edition =>
            let st := { st with version := some (verS ++ " " ++ motd2 ++ "(" ++ edition ++ ")") }
            match get 1 with
            | .error e => .error e
            | .ok motd1 =>
              let st := { st with motd := some motd1,
                                  stripped_motd := some (motd_strip_formatting motd1) }
              match get 8 with
              | .error e => .error e
              | .ok gm => .ok ({ st with gamemode := some gm }, .SUCCESS)

/-- Abstract model of the decoded JSON status object consumed by
MineStat.__parse_json_payload.  Only the shape the parser inspects is
represented: a missing required key is none (the source then raises
KeyError); the description is modelled in its plain-string form (the
chat-component dictionary form differs only in the stored motd rendering,
which no claim inspects); the favicon is the value stored when the key is
present (its base64 decoding is abstracted, no claim inspects it). -/
structure JsonPayload where
  versionName : Option String
  description : Option String
  playersMax : Option Int
  playersOnline : Option Int
  faviconVal : Option String
deriving DecidableEq, Repr

/-- MineStat.__parse_json_payload: none models a payload that is not valid
JSON (json.JSONDecodeError, caught and turned into UNKNOWN); afterwards the
source reads the required keys in order (KeyError on a missing one), fills
the fields, handles the optional favicon, sets online and returns SUCCESS. -/
def parse_json_payload (st : MineStat) (payload : Option JsonPayload) :
    Except PyExn (MineStat × ConnStatus) :=
  match payload with
  | none => .ok (st, .UNKNOWN)
  | some p =>
    match p.versionName with
    | none => .error .keyError
    | some vn =>
      let st := { st with version := some vn }
      match p.description with
      | none => .error .keyError
      | some d =>
        let st := { st with motd := some d,
                            stripped_motd := some (motd_strip_formatting d) }
        match p.playersMax with
        | none => .error .keyError
        | some mx =>
          let st := { st with max_players := some mx }
          match p.playersOnline with
          | none => .error .keyError
          | some cur =>
            let st := { st with current_players := some cur }
            let st :=
              match p.faviconVal with
              | none => { st with favicon_b64 := none, favicon := none }
              | some f => { st with favicon_b64 := some f, favicon := some f }
            .ok ({ st with online := true }, .SUCCESS)

/-- Environment of one MineStat.legacy_query attempt: the connect outcome,
the outcome of receiving the 3-byte response header (its content length
field), and the outcome of receiving the payload, delivered as the decoded
string.  The struct.unpack of the header cannot fail on the exact 3 bytes
_recv_exact returns, so the struct.error branch of the source is dead and
not modelled. -/
structure LegacyEnv where
  connect : ConnectR
  header : Recv Int
  payload : Recv String
deriving DecidableEq, Repr

/-- MineStat.legacy_query.  The connect failure mapping is socket.timeout to
TIMEOUT and OSError to CONNFAIL; the header receive failure mapping is
socket.timeout to TIMEOUT, ConnectionAbortedError or ConnectionResetError to
UNKNOWN and OSError to CONNFAIL.  The payload receive (source line 655) is
outside every try block, so a failure there propagates as an exception.  On
a received payload the source records the protocol and delegates to
__parse_legacy_payload. -/
def legacy_query (e : LegacyEnv) (st : MineStat) :
    Except PyExn (MineStat × ConnStatus) :=
  match e.connect with
  | .timeout => .ok (st, .TIMEOUT)
  | .osError => .ok (st, .CONNFAIL)
  | .ok lat =>
    let st := { st with latency := some lat }
    match e.header with
    | .err .timeout => .ok (st, .TIMEOUT)
    | .err .aborted => .ok (st, .UNKNOWN)
    | .err .osError => .ok (st, .CONNFAIL)
    | .ok _content_len =>
      match e.payload with
      | .err err => .error err.toExn
      | .ok payload_str =>
        let st := { st with slp_protocol := some .LEGACY }
        parse_legacy_payload st payload_str

/-- Environment of one MineStat.beta_query attempt; identical shape to a
legacy attempt (same framing). -/
structure BetaEnv where
  connect : ConnectR
  header : Recv Int
  payload : Recv String
deriving DecidableEq, Repr

/-- MineStat.beta_query.  Identical connect and header handling to
legacy_query; the payload receive (source line 743) is outside every try
block, so a failure there propagates as an exception.  On a received payload
the source records the protocol and runs the inline parsing tail
parse_beta_payload. -/
def beta_query (e : BetaEnv) (st : MineStat) :
    Except PyExn (MineStat × ConnStatus) :=
  match e.connect with
  | .timeout => .ok (st, .TIMEOUT)
  | .osError => .ok (st, .CONNFAIL)
  | .ok lat =>
    let st := { st with latency := some lat }
    match e.header with
    | .err .timeout => .ok (st, .TIMEOUT)
    | .err .aborted => .ok (st, .UNKNOWN)
    | .err .osError => .ok (st, .CONNFAIL)
    | .ok _content_len =>
      match e.payload with
      | .err err => .error err.toExn
      | .ok payload_str =>
        let st := { st with slp_protocol := some .BETA }
        parse_beta_payload st payload_str

/-- Environment of one MineStat.extended_legacy_query attempt: the connect
outcome, the received response packet id, the received payload length field,
and the payload delivered as the decoded string.  All three receives sit in
one try block whose failure mapping additionally sends struct.error to
UNKNOWN; a struct.error is impossible here for the same exact-read reason as
in legacy_query. -/
structure ExtLegacyEnv where
  connect : ConnectR
  packetId : Recv Nat
  payloadLen : Recv Int
  payload : Recv String
deriving DecidableEq, Repr

/-- MineStat.extended_legacy_query.  A packet id other than 0xFF (the kick
packet) is UNKNOWN; a payload length below 3 is UNKNOWN; receive failures
map to TIMEOUT, UNKNOWN, CONNFAIL as in the legacy codec; on a received
payload the source records the protocol and delegates to the shared
__parse_legacy_payload. -/
def extended_legacy_query (e : ExtLegacyEnv) (st : MineStat) :
    Except PyExn (MineStat × ConnStatus) :=
  match e.connect with
  | .timeout => .ok (st, .TIMEOUT)
  | .osError => .ok (st, .CONNFAIL)
  | .ok lat =>
    let st := { st with latency := some lat }
    match e.packetId with
    | .err .timeout => .ok (st, .TIMEOUT)
    | .err .aborted => .ok (st, .UNKNOWN)
    | .err .osError => .ok (st, .CONNFAIL)
    | .ok pid =>
      if pid ≠ 0xFF then .ok (st, .UNKNOWN)
      else
        match e.payloadLen with
        | .err .timeout => .ok (st, .TIMEOUT)
        | .err .aborted => .ok (st, .UNKNOWN)
        | .err .osError => .ok (st, .CONNFAIL)
        | .ok content_len =>
          if content_len < 3 then .ok (st, .UNKNOWN)
          else
            match e.payload with
            | .err .timeout => .ok (st, .TIMEOUT)
            | .err .aborted => .ok (st, .UNKNOWN)
            | .err .osError => .ok (st, .CONNFAIL)
            | .ok payload_str =>
              let st := { st with slp_protocol := some .EXTENDED_LEGACY }
              parse_legacy_payload st payload_str

/-- Environment of one MineStat.json_query attempt: the connect outcome, the
three received varints (packet length, packet id, content length) and the
payload, delivered as the abstract decoded JSON object (none when the bytes
are not valid JSON). -/
structure JsonEnv where
  connect : ConnectR
  packetLen : Recv Int
  packetId : Recv Int
  contentLen : Recv Int
  payload : Recv (Option JsonPayload)
deriving DecidableEq, Repr

/-- MineStat.json_query.  A packet length below 3 is UNKNOWN; a packet id
other than 0 is UNKNOWN; all receives sit in one try block with the usual
TIMEOUT, UNKNOWN, CONNFAIL failure mapping; on a received payload the source
records the protocol and delegates to __parse_json_payload. -/
def json_query (e : JsonEnv) (st : MineStat) :
    Except PyExn (MineStat × ConnStatus) :=
  match e.connect with
  | .timeout => .ok (st, .TIMEOUT)
  | .osError => .ok (st, .CONNFAIL)
  | .ok lat =>
    let st := { st with latency := some lat }
    match e.packetLen with
    | .err .timeout => .ok (st, .TIMEOUT)
    | .err .aborted => .ok (st, .UNKNOWN)
    | .err .osError => .ok (st, .CONNFAIL)
    | .ok packet_len =>
      if packet_len < 3 then .ok (st, .UNKNOWN)
      else
        match e.packetId with
        | .err .timeout => .ok (st, .TIMEOUT)
        | .err .aborted => .ok (st, .UNKNOWN)
        | .err .osError => .ok (st, .CONNFAIL)
        | .ok packet_id =>
          if packet_id ≠ 0 then .ok (st, .UNKNOWN)
          else
            match e.contentLen with
            | .err .timeout => .ok (st, .TIMEOUT)
            | .err .aborted => .ok (st, .UNKNOWN)
            | .err .osError => .ok (st, .CONNFAIL)
            | .ok _content_len =>
              match e.payload with
              | .err .timeout => .ok (st, .TIMEOUT)
              | .err .aborted => .ok (st, .UNKNOWN)
              | .err .osError => .ok (st, .CONNFAIL)
              | .ok payload =>
                let st := { st with slp_protocol := some .JSON }
                parse_json_payload st payload

/-- The response of one Bedrock Unconnected Pong, as far as the source
inspects it: the packet id byte, whether the 16 magic bytes match, and the
decoded server ID string.  The case short models a response long enough to
deliver the packet id but truncated before the fixed-size fields, where
struct.unpack raises struct.error, which the source does not catch. -/
inductive BedrockResp
  | err (e : RecvErr)
  | short
  | ok (packetId : Nat) (magicOk : Bool) (idString : String)
deriving DecidableEq, Repr

/-- Environment of one MineStat.bedrock_raknet_query attempt. -/
structure BedrockEnv where
  connect : ConnectR
  resp : BedrockResp
deriving DecidableEq, Repr

/-- MineStat.bedrock_raknet_query.  The UDP connect failure mapping is
socket.timeout to TIMEOUT and OSError to CONNFAIL; receive failures map to
TIMEOUT, UNKNOWN, CONNFAIL; a packet id other than 0x1C or a magic mismatch
is UNKNOWN; otherwise the source records the protocol and delegates to
__parse_bedrock_payload. -/
def bedrock_raknet_query (e : BedrockEnv) (st : MineStat) :
    Except PyExn (MineStat × ConnStatus) :=
  match e.connect with
  | .timeout => .ok (st, .TIMEOUT)
  | .osError => .ok (st, .CONNFAIL)
  | .ok lat =>
    let st := { st with latency := some lat }
    match e.resp with
    | .err .timeout => .ok (st, .TIMEOUT)
    | .err .aborted => .ok (st, .UNKNOWN)
    | .err .osError => .ok (st, .CONNFAIL)
    | .short => .error .structError
    | .ok pid magicOk idString =>
      if pid ≠ 0x1C then .ok (st, .UNKNOWN)
      else if ¬magicOk then .ok (st, .UNKNOWN)
      else
        let st := { st with slp_protocol := some .BEDROCK_RAKNET }
        parse_bedrock_payload st idString

/-- The full network environment of one MineStat query.  Under the ALL
protocol each codec is attempted at most once, so one attempt outcome per
codec suffices. -/
structure Env where
  bedrock : BedrockEnv
  legacy : LegacyEnv
  beta : BetaEnv
  extLegacy : ExtLegacyEnv
  json : JsonEnv
deriving DecidableEq, Repr

def DEFAULT_TCP_PORT : Nat := 25565

def DEFAULT_BEDROCK_PORT : Nat := 19132

/-- MineStat.__init__, the public query entry point (the orchestrator).
Port 0 auto-selects the default port for the chosen protocol.  When a single
protocol is selected, only that codec runs and its result is stored.  Under
ALL, the source queries Bedrock first (on the Bedrock default port when
auto-selected), stores its result, and stops on SUCCESS; otherwise it runs
the TCP chain: legacy always; beta only when the running result is neither
CONNFAIL nor SUCCESS; extended legacy only when the running result is not
CONNFAIL, overwriting the running result even after a SUCCESS; json only
when the running result is not CONNFAIL, with its return value discarded
(source line 248 does not assign it); finally it stores the running result.
The returned list records which codecs were invoked, in order; it is
instrumentation for the claims, not part of the Python state. -/
def minestat (address : String) (port timeout : Nat) (query_protocol : SlpProtocols)
    (env : Env) : Except PyExn (MineStat × List Codec) :=
  let autoport := port = 0
  let port0 :=
    if autoport then
      (if query_protocol = .BEDROCK_RAKNET then DEFAULT_BEDROCK_PORT else DEFAULT_TCP_PORT)
    else port
  let st0 := initState address port0 timeout
  match query_protocol with
  | .BETA =>
    match beta_query env.beta st0 with
    | .error e => .error e
    | .ok (st, r) => .ok ({ st with connection_status := some r }, [.beta])
  | .LEGACY =>
    match legacy_query env.legacy st0 with
    | .error e => .error e
    | .ok (st, r) => .ok ({ st with connection_status := some r }, [.legacy])
  | .EXTENDED_LEGACY =>
    match extended_legacy_query env.extLegacy st0 with
    | .error e => .error e
    | .ok (st, r) => .ok ({ st with connection_status := some r }, [.extLegacy])
  | .JSON =>
    match json_query env.json st0 with
    | .error e => .error e
    | .ok (st, r) => .ok ({ st with connection_status := some r }, [.json])
  | .BEDROCK_RAKNET =>
    match bedrock_raknet_query env.bedrock st0 with
    | .error e => .error e
    | .ok (st, r) => .ok ({ st with connection_status := some r }, [.bedrock])
  | .ALL =>
    let st1 := if autoport then { st0 with port := DEFAULT_BEDROCK_PORT } else st0
    match bedrock_raknet_query env.bedrock st1 with
    | .error e => .error e
    | .ok (st2, r1) =>
      let st2 := { st2 with connection_status := some r1 }
      if r1 = .SUCCESS then .ok (st2, [.bedrock])
      else
        let st3 := if autoport then { st2 with port := DEFAULT_TCP_PORT } else st2
        match legacy_query env.legacy st3 with
        | .error e => .error e
        | .ok (st4, r2) =>
          match (if r2 ≠ .CONNFAIL ∧ r2 ≠ .SUCCESS then
                   (beta_query env.beta st4).map (fun p => (p.1, p.2, [Codec.beta]))
                 else .ok (st4, r2, ([] : List Codec))) with
          | .error e => .error e
          | .ok (st5, r3, tb) =>
            match (if r3 ≠ .CONNFAIL then
                     (extended_legacy_query env.extLegacy st5).map
                       (fun p => (p.1, p.2, [Codec.extLegacy]))
                   else .ok (st5, r3, ([] : List Codec))) with
            | .error e => .error e
            | .ok (st6, r4, te) =>
              match (if r4 ≠ .CONNFAIL then
                       (json_query env.json st6).map (fun p => (p.1, [Codec.json]))
                     else .ok (st6, ([] : List Codec))) with
              | .error e => .error e
              | .ok (st7, tj) =>
                .ok ({ st7 with connection_status := some r4 },
                     [Codec.bedrock, Codec.legacy] ++ tb ++ te ++ tj)

/-- The legacy payload parser sets online exactly when it returns SUCCESS,
never unsetting an already-set online flag. -/
theorem parse_legacy_payload_online {st st' : MineStat} {s : String} {r : ConnStatus}
    (h : parse_legacy_payload st s = .ok (st', r)) :
    st'.online = (st.online || decide (r = ConnStatus.SUCCESS)) := by
  unfold parse_legacy_payload at h
  dsimp only at h
  split at h
  · cases h
    simp
  · split at h
    · cases h
    · split at h
      · cases h
      · cases h
        simp

/-- The beta payload parser sets online exactly when it returns SUCCESS,
never unsetting an already-set online flag. -/
theorem parse_beta_payload_online {st st' : MineStat} {s : String} {r : ConnStatus}
    (h : parse_beta_payload st s = .ok (st', r)) :
    st'.online = (st.online || decide (r = ConnStatus.SUCCESS)) := by
  unfold parse_beta_payload at h
  dsimp only at h
  split at h
  · cases h
    simp
  · split at h
    · cases h
    · split at h
      · cases h
      · cases h
        simp

/-- The bedrock payload parser sets online exactly when it returns SUCCESS,
never unsetting an already-set online flag. -/
theorem parse_bedrock_payload_online {st st' : MineStat} {s : String} {r : ConnStatus}
    (h : parse_bedrock_payload st s = .ok (st', r)) :
    st'.online = (st.online || decide (r = ConnStatus.SUCCESS)) := by
  unfold parse_bedrock_payload at h
  dsimp only at h
  split at h
  · cases h
  · split at h
    · cases h
    · split at h
      · cases h
      · split at h
        · cases h
        · split at h
          · cases h
          · cases h
          · cases h
          · split at h
            · cases h
            · split at h
              · cases h
              · cases h
                simp

/-- The json payload parser sets online exactly when it returns SUCCESS,
never unsetting an already-set online flag. -/
theorem parse_json_payload_online {st st' : MineStat} {p : Option JsonPayload} {r : ConnStatus}
    (h : parse_json_payload st p = .ok (st', r)) :
    st'.online = (st.online || decide (r = ConnStatus.SUCCESS)) := by
  unfold parse_json_payload at h
  dsimp only at h
  split at h
  · cases h
    simp
  · split at h
    · cases h
    · split at h
      · cases h
      · split at h
        · cases h
        · split at h
          · cases h
          · split at h <;> cases h <;> simp
/-- The status returned by the legacy payload parser depends only on the
payload string, not on the incoming state. -/
theorem parse_legacy_payload_status (st1 st2 : MineStat) (s : String) :
    (parse_legacy_payload st1 s).map Prod.snd = (parse_legacy_payload st2 s).map Prod.snd := by
  unfold parse_legacy_payload
  dsimp only
  by_cases hl : (pySplit s '\x00').length ≠ 6
  · rw [if_pos hl, if_pos hl]
    rfl
  · rw [if_neg hl, if_neg hl]
    rcases h4 : pyInt ((pySplit s '\x00').getD 4 "") with _ | cur
    · rfl
    · rcases h5 : pyInt ((pySplit s '\x00').getD 5 "") with _ | mx
      · rfl
      · rfl

/-- The status returned by the beta payload parser depends only on the
payload string, not on the incoming state. -/
theorem parse_beta_payload_status (st1 st2 : MineStat) (s : String) :
    (parse_beta_payload st1 s).map Prod.snd = (parse_beta_payload st2 s).map Prod.snd := by
  unfold parse_beta_payload
  dsimp only
  by_cases hl : (pySplit s '§').length < 3
  · rw [if_pos hl, if_pos hl]
    rfl
  · rw [if_neg hl, if_neg hl]
    rcases h1 : pyInt ((pySplit s '§').getD ((pySplit s '§').length - 1) "") with _ | mx
    · rfl
    · rcases h2 : pyInt ((pySplit s '§').getD ((pySplit s '§').length - 2) "") with _ | cur
      · rfl
      · rfl

/-- The status returned by the bedrock payload parser depends only on the
payload string, not on the incoming state. -/
theorem parse_bedrock_payload_status (st1 st2 : MineStat) (s : String) :
    (parse_bedrock_payload st1 s).map Prod.snd = (parse_bedrock_payload st2 s).map Prod.snd := by
  unfold parse_bedrock_payload
  dsimp only
  by_cases h4 : 4 < (pySplit s ';').length
  · rw [if_pos h4]
    dsimp only
    rcases hc : pyInt ((pySplit s ';').getD 4 "") with _ | cur
    · rfl
    · dsimp only
      by_cases h5 : 5 < (pySplit s ';').length
      · rw [if_pos h5]
        dsimp only
        rcases hm : pyInt ((pySplit s ';').getD 5 "") with _ | mx
        · rfl
        · dsimp only
          by_cases h3 : 3 < (pySplit s ';').length
          · rw [if_pos h3]
            by_cases h7 : 7 < (pySplit s ';').length
            · rw [if_pos h7]
              by_cases h0 : 0 < (pySplit s ';').length
              · rw [if_pos h0]
                dsimp only
                by_cases hm1 : 1 < (pySplit s ';').length
                · rw [if_pos hm1]
                  dsimp only
                  by_cases h8 : 8 < (pySplit s ';').length
                  · rw [if_pos h8]
                    rfl
                  · rw [if_neg h8]
                · rw [if_neg hm1]
              · rw [if_neg h0]
            · rw [if_neg h7]
              by_cases h0 : 0 < (pySplit s ';').length
              · rw [if_pos h0]
              · rw [if_neg h0]
          · rw [if_neg h3]
            by_cases h7 : 7 < (pySplit s ';').length
            · rw [if_pos h7]
              by_cases h0 : 0 < (pySplit s ';').length
              · rw [if_pos h0]
              · rw [if_neg h0]
            · rw [if_neg h7]
              by_cases h0 : 0 < (pySplit s ';').length
              · rw [if_pos h0]
              · rw [if_neg h0]
      · rw [if_neg h5]
  · rw [if_neg h4]

/-- The status returned by the json payload parser depends only on the
payload, not on the incoming state. -/
theorem parse_json_payload_status (st1 st2 : MineStat) (p : Option JsonPayload) :
    (parse_json_payload st1 p).map Prod.snd = (parse_json_payload st2 p).map Prod.snd := by
  unfold parse_json_payload
  rcases p with _ | p
  · rfl
  · dsimp only
    rcases hv : p.versionName with _ | vn
    · rfl
    · dsimp only
      rcases hd : p.description with _ | d
      · rfl
      · dsimp only
        rcases hm : p.playersMax with _ | mx
        · rfl
        · dsimp only
          rcases ho : p.playersOnline with _ | cur
          · rfl
          · dsimp only
            rcases hf : p.faviconVal with _ | f
            · rfl
            · rfl

/-- The status (or uncaught exception) of a legacy codec attempt, as a
function of its network environment alone. -/
def legacyStatusE (e : LegacyEnv) : Except PyExn ConnStatus :=
  (legacy_query e dummySt).map Prod.snd

/-- The status (or uncaught exception) of a beta codec attempt, as a
function of its network environment alone. -/
def betaStatusE (e : BetaEnv) : Except PyExn ConnStatus :=
  (beta_query e dummySt).map Prod.snd

/-- The status (or uncaught exception) of an extended-legacy codec attempt,
as a function of its network environment alone. -/
def extLegacyStatusE (e : ExtLegacyEnv) : Except PyExn ConnStatus :=
  (extended_legacy_query e dummySt).map Prod.snd

/-- The status (or uncaught exception) of a json codec attempt, as a
function of its network environment alone. -/
def jsonStatusE (e : JsonEnv) : Except PyExn ConnStatus :=
  (json_query e dummySt).map Prod.snd

/-- The status (or uncaught exception) of a bedrock codec attempt, as a
function of its network environment alone. -/
def bedrockStatusE (e : BedrockEnv) : Except PyExn ConnStatus :=
  (bedrock_raknet_query e dummySt).map Prod.snd

/-- The status a legacy attempt returns does not depend on the incoming
state. -/
theorem legacy_query_status (e : LegacyEnv) (st : MineStat) :
    (legacy_query e st).map Prod.snd = legacyStatusE e := by
  unfold legacyStatusE legacy_query
  obtain ⟨conn, header, payload⟩ := e
  rcases conn with lat | _ | _
  · dsimp only
    rcases header with cl | er
    · dsimp only
      rcases payload with s | er
      · exact parse_legacy_payload_status _ _ s
      · rcases er with _ | _ | _ <;> rfl
    · rcases er with _ | _ | _ <;> rfl
  · rfl
  · rfl

/-- The status a beta attempt returns does not depend on the incoming
state. -/
theorem beta_query_status (e : BetaEnv) (st : MineStat) :
    (beta_query e st).map Prod.snd = betaStatusE e := by
  unfold betaStatusE beta_query
  obtain ⟨conn, header, payload⟩ := e
  rcases conn with lat | _ | _
  · dsimp only
    rcases header with cl | er
    · dsimp only
      rcases payload with s | er
      · exact parse_beta_payload_status _ _ s
      · rcases er with _ | _ | _ <;> rfl
    · rcases er with _ | _ | _ <;> rfl
  · rfl
  · rfl

/-- The status an extended-legacy attempt returns does not depend on the
incoming state. -/
theorem extended_legacy_query_status (e : ExtLegacyEnv) (st : MineStat) :
    (extended_legacy_query e st).map Prod.snd = extLegacyStatusE e := by
  unfold extLegacyStatusE extended_legacy_query
  obtain ⟨conn, packetId, payloadLen, payload⟩ := e
  rcases conn with lat | _ | _
  · dsimp only
    rcases packetId with pid | er
    · dsimp only
      by_cases hp : pid ≠ 0xFF
      · rw [if_pos hp, if_pos hp]
        rfl
      · rw [if_neg hp, if_neg hp]
        rcases payloadLen with cl | er
        · dsimp only
          by_cases hc : cl < 3
          · rw [if_pos hc, if_pos hc]
            rfl
          · rw [if_neg hc, if_neg hc]
            rcases payload with s | er
            · exact parse_legacy_payload_status _ _ s
            · rcases er with _ | _ | _ <;> rfl
        · rcases er with _ | _ | _ <;> rfl
    · rcases er with _ | _ | _ <;> rfl
  · rfl
  · rfl

/-- The status a json attempt returns does not depend on the incoming
state. -/
theorem json_query_status (e : JsonEnv) (st : MineStat) :
    (json_query e st).map Prod.snd = jsonStatusE e := by
  unfold jsonStatusE json_query
  obtain ⟨conn, packetLen, packetId, contentLen, payload⟩ := e
  rcases conn with lat | _ | _
  · dsimp only
    rcases packetLen with pl | er
    · dsimp only
      by_cases hl : pl < 3
      · rw [if_pos hl, if_pos hl]
        rfl
      · rw [if_neg hl, if_neg hl]
        rcases packetId with pid | er
        · dsimp only
          by_cases hp : pid ≠ 0
          · rw [if_pos hp, if_pos hp]
            rfl
          · rw [if_neg hp, if_neg hp]
            rcases contentLen with cl | er
            · dsimp only
              rcases payload with p | er
              · exact parse_json_payload_status _ _ p
              · rcases er with _ | _ | _ <;> rfl
            · rcases er with _ | _ | _ <;> rfl
        · rcases er with _ | _ | _ <;> rfl
    · rcases er with _ | _ | _ <;> rfl
  · rfl
  · rfl

/-- The status a bedrock attempt returns does not depend on the incoming
state. -/
theorem bedrock_raknet_query_status (e : BedrockEnv) (st : MineStat) :
    (bedrock_raknet_query e st).map Prod.snd = bedrockStatusE e := by
  unfold bedrockStatusE bedrock_raknet_query
  obtain ⟨conn, resp⟩ := e
  rcases conn with lat | _ | _
  · dsimp only
    cases resp with
    | err er => cases er <;> rfl
    | short => rfl
    | ok pid magicOk s =>
      dsimp only
      by_cases hp : pid ≠ 0x1C
      · rw [if_pos hp, if_pos hp]
        rfl
      · rw [if_neg hp, if_neg hp]
        by_cases hm : ¬magicOk
        · rw [if_pos hm, if_pos hm]
          rfl
        · rw [if_neg hm, if_neg hm]
          exact parse_bedrock_payload_status _ _ s
  · rfl
  · rfl

/-- A legacy attempt that returns a result sets online exactly on SUCCESS and
never clears it. -/
theorem legacy_query_online {e : LegacyEnv} {st st' : MineStat} {r : ConnStatus}
    (h : legacy_query e st = .ok (st', r)) :
    st'.online = (st.online || decide (r = ConnStatus.SUCCESS)) := by
  unfold legacy_query at h
  obtain ⟨conn, header, payload⟩ := e
  rcases conn with lat | _ | _
  · dsimp only at h
    rcases header with cl | er
    · dsimp only at h
      rcases payload with s | er
      · dsimp only at h
        have := parse_legacy_payload_online h
        simpa using this
      · exact Except.noConfusion h
    · rcases er with _ | _ | _ <;> (cases h; simp)
  · cases h
    simp
  · cases h
    simp

/-- A beta attempt that returns a result sets online exactly on SUCCESS and
never clears it. -/
theorem beta_query_online {e : BetaEnv} {st st' : MineStat} {r : ConnStatus}
    (h : beta_query e st = .ok (st', r)) :
    st'.online = (st.online || decide (r = ConnStatus.SUCCESS)) := by
  unfold beta_query at h
  obtain ⟨conn, header, payload⟩ := e
  rcases conn with lat | _ | _
  · dsimp only at h
    rcases header with cl | er
    · dsimp only at h
      rcases payload with s | er
      · dsimp only at h
        have := parse_beta_payload_online h
        simpa using this
      · exact Except.noConfusion h
    · rcases er with _ | _ | _ <;> (cases h; simp)
  · cases h
    simp
  · cases h
    simp

/-- An extended-legacy attempt that returns a result sets online exactly on
SUCCESS and never clears it. -/
theorem extended_legacy_query_online {e : ExtLegacyEnv} {st st' : MineStat} {r : ConnStatus}
    (h : extended_legacy_query e st = .ok (st', r)) :
    st'.online = (st.online || decide (r = ConnStatus.SUCCESS)) := by
  unfold extended_legacy_query at h
  obtain ⟨conn, packetId, payloadLen, payload⟩ := e
  rcases conn with lat | _ | _
  · dsimp only at h
    rcases packetId with pid | er
    · dsimp only at h
      by_cases hp : pid ≠ 0xFF
      · rw [if_pos hp] at h
        cases h
        simp
      · rw [if_neg hp] at h
        rcases payloadLen with cl | er
        · dsimp only at h
          by_cases hc : cl < 3
          · rw [if_pos hc] at h
            cases h
            simp
          · rw [if_neg hc] at h
            rcases payload with s | er
            · dsimp only at h
              have := parse_legacy_payload_online h
              simpa using this
            · rcases er with _ | _ | _ <;> (cases h; simp)
        · rcases er with _ | _ | _ <;> (cases h; simp)
    · rcases er with _ | _ | _ <;> (cases h; simp)
  · cases h
    simp
  · cases h
    simp

/-- A json attempt that returns a result sets online exactly on SUCCESS and
never clears it. -/
theorem json_query_online {e : JsonEnv} {st st' : MineStat} {r : ConnStatus}
    (h : json_query e st = .ok (st', r)) :
    st'.online = (st.online || decide (r = ConnStatus.SUCCESS)) := by
  unfold json_query at h
  obtain ⟨conn, packetLen, packetId, contentLen, payload⟩ := e
  rcases conn with lat | _ | _
  · dsimp only at h
    rcases packetLen with pl | er
    · dsimp only at h
      by_cases hl : pl < 3
      · rw [if_pos hl] at h
        cases h
        simp
      · rw [if_neg hl] at h
        rcases packetId with pid | er
        · dsimp only at h
          by_cases hp : pid ≠ 0
          · rw [if_pos hp] at h
            cases h
            simp
          · rw [if_neg hp] at h
            rcases contentLen with cl | er
            · dsimp only at h
              rcases payload with p | er
              · dsimp only at h
                have := parse_json_payload_online h
                simpa using this
              · rcases er with _ | _ | _ <;> (cases h; simp)
            · rcases er with _ | _ | _ <;> (cases h; simp)
        · rcases er with _ | _ | _ <;> (cases h; simp)
    · rcases er with _ | _ | _ <;> (cases h; simp)
  · cases h
    simp
  · cases h
    simp

/-- A bedrock attempt that returns a result sets online exactly on SUCCESS
and never clears it. -/
theorem bedrock_raknet_query_online {e : BedrockEnv} {st st' : MineStat} {r : ConnStatus}
    (h : bedrock_raknet_query e st = .ok (st', r)) :
    st'.online = (st.online || decide (r = ConnStatus.SUCCESS)) := by
  unfold bedrock_raknet_query at h
  obtain ⟨conn, resp⟩ := e
  rcases conn with lat | _ | _
  · dsimp only at h
    cases resp with
    | err er => cases er <;> (cases h; simp)
    | short => exact Except.noConfusion h
    | ok pid magicOk s =>
      dsimp only at h
      by_cases hp : pid ≠ 0x1C
      · rw [if_pos hp] at h
        cases h
        simp
      · rw [if_neg hp] at h
        by_cases hm : ¬magicOk
        · rw [if_pos hm] at h
          cases h
          simp
        · rw [if_neg hm] at h
          have := parse_bedrock_payload_online h
          simpa using this
  · cases h
    simp
  · cases h
    simp

/-- C7 (amended): for every decoded payload string, any NUL-split field count
other than 6 makes the shared legacy parser return UNKNOWN with no field set;
with exactly 6 fields it returns SUCCESS with version field 2, motd field 3,
current players field 4 and max players field 5, provided fields 4 and 5
parse as integers (the source converts them with Python int, which raises an
uncaught ValueError on a non-numeric field, so the unconditional 6-fields-
implies-SUCCESS reading of the claim fails; see the counterexample). -/
theorem c7_legacy_fields (st : MineStat) (s : String) :
    ((pySplit s '\x00').length ≠ 6 → parse_legacy_payload st s = .ok (st, .UNKNOWN))
    ∧ (∀ cur mx : Int, (pySplit s '\x00').length = 6 →
        pyInt ((pySplit s '\x00').getD 4 "") = some cur →
        pyInt ((pySplit s '\x00').getD 5 "") = some mx →
        parse_legacy_payload st s = .ok ({ st with
          version := some ((pySplit s '\x00').getD 2 ""),
          motd := some ((pySplit s '\x00').getD 3 ""),
          stripped_motd := some (motd_strip_formatting ((pySplit s '\x00').getD 3 "")),
          current_players := some cur,
          max_players := some mx,
          online := true }, .SUCCESS)) := by
  constructor
  · intro hl
    unfold parse_legacy_payload
    dsimp only
    rw [if_pos hl]
  · intro cur mx h6 h4 h5
    unfold parse_legacy_payload
    dsimp only
    rw [if_neg (fun hne => hne h6), h4]
    dsimp only
    rw [h5]

/-- Witness for C7 on a well-formed 6-field legacy payload. -/
theorem c7_witness :
    parse_legacy_payload dummySt "§1\x0047\x001.4.2\x00A Server\x0012\x0020"
      = .ok ({ dummySt with
          version := some "1.4.2",
          motd := some "A Server",
          stripped_motd := some "A Server",
          current_players := some 12,
          max_players := some 20,
          online := true }, .SUCCESS) :=
  (c7_legacy_fields dummySt "§1\x0047\x001.4.2\x00A Server\x0012\x0020").2 12 20
    (by decide) (by decide) (by decide)

/-- Counterexample for C7 as stated: this payload splits into exactly 6
NUL-separated fields, yet the parser does not return SUCCESS; it raises
ValueError (field 4 is not numeric). -/
theorem c7_counterexample :
    (pySplit "a\x00b\x00c\x00d\x00e\x00f" '\x00').length = 6
    ∧ parse_legacy_payload dummySt "a\x00b\x00c\x00d\x00e\x00f" = .error .valueError :=
  ⟨rfl, rfl⟩

/-- C8 (amended): for every decoded payload string, fewer than 3 fields after
splitting on the section sign makes the beta parser return UNKNOWN; with at
least 3 fields it returns SUCCESS with max players the last field, current
players the second-to-last field and the MOTD the remaining leading fields
rejoined with the section sign (so a MOTD containing the section sign is
preserved verbatim), provided the two player fields parse as integers (the
source converts them with Python int, which raises an uncaught ValueError on
a non-numeric field, so the unconditional at-least-3-fields-implies-SUCCESS
reading of the claim fails; see the counterexample). -/
theorem c8_beta_fields (st : MineStat) (s : String) :
    ((pySplit s '§').length < 3 → parse_beta_payload st s = .ok (st, .UNKNOWN))
    ∧ (∀ cur mx : Int, 3 ≤ (pySplit s '§').length →
        pyInt ((pySplit s '§').getD ((pySplit s '§').length - 1) "") = some mx →
        pyInt ((pySplit s '§').getD ((pySplit s '§').length - 2) "") = some cur →
        parse_beta_payload st s = .ok ({ st with
          current_players := some cur,
          max_players := some mx,
          motd := some (String.intercalate "§" (pySplit s '§').dropLast.dropLast),
          stripped_motd := some (motd_strip_formatting
            (String.intercalate "§" (pySplit s '§').dropLast.dropLast)),
          version := some ">=1.8b/1.3",
          online := true }, .SUCCESS)) := by
  constructor
  · intro hl
    unfold parse_beta_payload
    dsimp only
    rw [if_pos hl]
  · intro cur mx h3 hmx hcur
    unfold parse_beta_payload
    dsimp only
    rw [if_neg (Nat.not_lt.mpr h3), hmx]
    dsimp only
    rw [hcur]

/-- Witness for C8 on a payload whose MOTD itself contains the section sign:
the split has 4 fields and the two leading fields are rejoined verbatim. -/
theorem c8_witness :
    parse_beta_payload dummySt "A§B§3§10"
      = .ok ({ dummySt with
          current_players := some 3,
          max_players := some 10,
          motd := some "A§B",
          stripped_motd := some "A",
          version := some ">=1.8b/1.3",
          online := true }, .SUCCESS) :=
  (c8_beta_fields dummySt "A§B§3§10").2 3 10 (by decide) (by decide) (by decide)

/-- Counterexample for C8 as stated: this payload splits into exactly 3
section-sign-separated fields, yet the parser does not return SUCCESS; it
raises ValueError (the last field is not numeric). -/
theorem c8_counterexample :
    3 ≤ (pySplit "a§b§c" '§').length
    ∧ parse_beta_payload dummySt "a§b§c" = .error .valueError :=
  ⟨by decide, rfl⟩

/-- A network environment in which no codec answers: every connect times
out.  Used as the value of the codec slots a single-protocol query never
touches. -/
def idleEnv : Env :=
  { bedrock := { connect := .timeout, resp := .err .timeout }
  , legacy := { connect := .timeout, header := .err .timeout, payload := .err .timeout }
  , beta := { connect := .timeout, header := .err .timeout, payload := .err .timeout }
  , extLegacy := { connect := .timeout, packetId := .err .timeout,
                   payloadLen := .err .timeout, payload := .err .timeout }
  , json := { connect := .timeout, packetLen := .err .timeout, packetId := .err .timeout,
              contentLen := .err .timeout, payload := .err .timeout } }

/-- Environment for C3: a single-protocol LEGACY query in which the server
completes the handshake and delivers a well-formed 6-field frame whose
current-player field is not numeric. -/
def envC3 : Env :=
  { idleEnv with
    legacy := { connect := .ok 5, header := .ok 24,
                payload := .ok "§1\x0047\x001.4.2\x00A Server\x00abc\x0020" } }

/-- C3 evaluation at the failing input: the query raises ValueError to the
caller instead of producing a record, contradicting the claim that every
failure mode yields a record with online false and a connection status. -/
theorem c3_exception_escapes :
    minestat "localhost" 0 5 .LEGACY envC3 = .error .valueError := rfl

/-- Environment for C4: a single-protocol Bedrock query whose response is
well-formed at the packet level but whose server ID string has only 2 of the
12 schema fields. -/
def envC4 : Env :=
  { idleEnv with
    bedrock := { connect := .ok 3, resp := .ok 0x1C true "MCPE;A Bedrock Server" } }

/-- C4 evaluation: with fewer than 12 semicolon-separated fields the bedrock
codec does not return UNKNOWN.  With 2 fields the dict-zip lookup raises an
uncaught KeyError that escapes to the caller; with 9 fields (still fewer
than 12) the parser happily returns SUCCESS; with exactly 12 fields it
parses to the documented positional schema. -/
theorem c4_bedrock_short_payload :
    minestat "localhost" 0 5 .BEDROCK_RAKNET envC4 = .error .keyError
    ∧ (parse_bedrock_payload dummySt "MCPE;motd;662;1.19.10;2;10;uid;sub;Survival").map
        Prod.snd = .ok ConnStatus.SUCCESS
    ∧ parse_bedrock_payload dummySt
        "MCPE;Line1;662;1.19.10;2;10;12345;Line2;Survival;1;19132;19133"
      = .ok ({ dummySt with
          online := true,
          current_players := some 2,
          max_players := some 10,
          version := some "1.19.10 Line2(MCPE)",
          motd := some "Line1",
          stripped_motd := some "Line1",
          gamemode := some "Survival" }, .SUCCESS) :=
  ⟨rfl, rfl, rfl⟩

/-- The result of the TCP fallback chain (status and invoked codecs),
recomputed from the codec statuses at environment level: legacy always runs;
beta only when the running result is neither CONNFAIL nor SUCCESS; extended
legacy only when the running result is not CONNFAIL, overwriting it; json
only when the running result is not CONNFAIL, with its status discarded.
Related to the orchestrator by minestat_all_run below. -/
def tcpChain (env : Env) : Except PyExn (ConnStatus × List Codec) :=
  match legacyStatusE env.legacy with
  | .error e => .error e
  | .ok r2 =>
    match (if r2 ≠ .CONNFAIL ∧ r2 ≠ .SUCCESS then
             (betaStatusE env.beta).map (fun r => (r, [Codec.beta]))
           else .ok (r2, ([] : List Codec))) with
    | .error e => .error e
    | .ok (r3, tb) =>
      match (if r3 ≠ .CONNFAIL then
               (extLegacyStatusE env.extLegacy).map (fun r => (r, [Codec.extLegacy]))
             else .ok (r3, ([] : List Codec))) with
      | .error e => .error e
      | .ok (r4, te) =>
        match (if r4 ≠ .CONNFAIL then
                 (jsonStatusE env.json).map (fun _ => [Codec.json])
               else .ok ([] : List Codec)) with
        | .error e => .error e
        | .ok tj => .ok (r4, [Codec.bedrock, Codec.legacy] ++ tb ++ te ++ tj)

/-- The final status and invoked-codec list of an ALL-mode query, recomputed
at environment level: bedrock first, stopping on SUCCESS, then the TCP
chain. -/
def allResult (env : Env) : Except PyExn (ConnStatus × List Codec) :=
  match bedrockStatusE env.bedrock with
  | .error e => .error e
  | .ok r1 =>
    if r1 = .SUCCESS then .ok (r1, [Codec.bedrock]) else tcpChain env

/-- Master characterization of an ALL-mode query that returns: its final
connection status and invoked-codec list are exactly those of the
environment-level recomputation allResult, and a final SUCCESS status
implies the record is marked online. -/
theorem minestat_all_run (a : String) (p t : Nat) (env : Env) (st : MineStat) (tr : List Codec)
    (h : minestat a p t .ALL env = .ok (st, tr)) :
    ∃ r, allResult env = .ok (r, tr) ∧ st.connection_status = some r
      ∧ (r = ConnStatus.SUCCESS → st.online = true) := by
  unfold minestat at h
  dsimp only at h
  split at h
  · exact Except.noConfusion h
  · rename_i st2 r1 heq1
    have hbs : bedrockStatusE env.bedrock = .ok r1 := by
      have hmap := congrArg (Except.map Prod.snd) heq1
      rw [bedrock_raknet_query_status] at hmap
      simpa using hmap
    by_cases hr1 : r1 = ConnStatus.SUCCESS
    · rw [if_pos hr1] at h
      cases h
      refine ⟨r1, ?_, rfl, ?_⟩
      · unfold allResult
        rw [hbs]
        dsimp only
        rw [if_pos hr1]
      · intro _
        have honl := bedrock_raknet_query_online heq1
        simp [hr1] at honl
        simpa using honl
    · rw [if_neg hr1] at h
      split at h
      · exact Except.noConfusion h
      · rename_i st4 r2 heq2
        have hls : legacyStatusE env.legacy = .ok r2 := by
          have hmap := congrArg (Except.map Prod.snd) heq2
          rw [legacy_query_status] at hmap
          simpa using hmap
        have honl2 : r2 = ConnStatus.SUCCESS → st4.online = true := by
          intro hs
          have := legacy_query_online heq2
          simp [hs] at this
          simpa using this
        split at h
        · exact Except.noConfusion h
        · rename_i st5 r3 tb heq3
          -- beta stage
          have hstage3 : (if r2 ≠ ConnStatus.CONNFAIL ∧ r2 ≠ ConnStatus.SUCCESS then
                (betaStatusE env.beta).map (fun r => (r, [Codec.beta]))
              else .ok (r2, ([] : List Codec))) = .ok (r3, tb)
              ∧ (r3 = ConnStatus.SUCCESS → st5.online = true) := by
            by_cases hc2 : r2 ≠ ConnStatus.CONNFAIL ∧ r2 ≠ ConnStatus.SUCCESS
            · rw [if_pos hc2] at heq3 ⊢
              rcases hq3 : beta_query env.beta st4 with e | ⟨st5', r3'⟩
              · rw [hq3] at heq3
                exact absurd heq3 (by simp [Except.map])
              · rw [hq3] at heq3
                simp only [Except.map] at heq3
                cases heq3
                constructor
                · rw [← beta_query_status env.beta st4, hq3]
                  rfl
                · intro hs
                  have := beta_query_online hq3
                  simp [hs] at this
                  simpa using this
            · rw [if_neg hc2] at heq3 ⊢
              cases heq3
              exact ⟨rfl, honl2⟩
          obtain ⟨hbstage, honl3⟩ := hstage3
          split at h
          · exact Except.noConfusion h
          · rename_i st6 r4 te heq4
            -- extended legacy stage
            have hstage4 : (if r3 ≠ ConnStatus.CONNFAIL then
                  (extLegacyStatusE env.extLegacy).map (fun r => (r, [Codec.extLegacy]))
                else .ok (r3, ([] : List Codec))) = .ok (r4, te)
                ∧ (r4 = ConnStatus.SUCCESS → st6.online = true) := by
              by_cases hc3 : r3 ≠ ConnStatus.CONNFAIL
              · rw [if_pos hc3] at heq4 ⊢
                rcases hq4 : extended_legacy_query env.extLegacy st5 with e | ⟨st6', r4'⟩
                · rw [hq4] at heq4
                  exact absurd heq4 (by simp [Except.map])
                · rw [hq4] at heq4
                  simp only [Except.map] at heq4
                  cases heq4
                  constructor
                  · rw [← extended_legacy_query_status env.extLegacy st5, hq4]
                    rfl
                  · intro hs
                    have := extended_legacy_query_online hq4
                    simp [hs] at this
                    simpa using this
              · rw [if_neg hc3] at heq4 ⊢
                cases heq4
                exact ⟨rfl, honl3⟩
            obtain ⟨hestage, honl4⟩ := hstage4
            split at h
            · exact Except.noConfusion h
            · rename_i st7 tj heq5
              -- json stage
              have hstage5 : (if r4 ≠ ConnStatus.CONNFAIL then
                    (jsonStatusE env.json).map (fun _ => [Codec.json])
                  else .ok ([] : List Codec)) = .ok tj
                  ∧ (r4 = ConnStatus.SUCCESS → st7.online = true) := by
                by_cases hc4 : r4 ≠ ConnStatus.CONNFAIL
                · rw [if_pos hc4] at heq5 ⊢
                  rcases hq5 : json_query env.json st6 with e | ⟨st7', rj⟩
                  · rw [hq5] at heq5
                    exact absurd heq5 (by simp [Except.map])
                  · rw [hq5] at heq5
                    simp only [Except.map] at heq5
                    cases heq5
                    constructor
                    · rw [← json_query_status env.json st6, hq5]
                      rfl
                    · intro hs
                      have hmono := json_query_online hq5
                      have h6 := honl4 hs
                      rw [h6] at hmono
                      simpa using hmono
                · rw [if_neg hc4] at heq5 ⊢
                  cases heq5
                  exact ⟨rfl, honl4⟩
              obtain ⟨hjstage, honl5⟩ := hstage5
              cases h
              refine ⟨r4, ?_, rfl, honl5⟩
              unfold allResult tcpChain
              rw [hbs]
              dsimp only
              rw [if_neg hr1, hls]
              dsimp only
              rw [hbstage]
              dsimp only
              rw [hestage]
              dsimp only
              rw [hjstage]

/-- Decidable equality of Except results, for deciding concrete status
comparisons. -/
instance exceptDecEq {e a : Type} [DecidableEq e] [DecidableEq a] :
    DecidableEq (Except e a) := fun x y =>
  match x, y with
  | .error u, .error v =>
    if h : u = v then isTrue (by rw [h]) else isFalse (fun hc => h (Except.error.inj hc))
  | .ok u, .ok v =>
    if h : u = v then isTrue (by rw [h]) else isFalse (fun hc => h (Except.ok.inj hc))
  | .error _, .ok _ => isFalse Except.noConfusion
  | .ok _, .error _ => isFalse Except.noConfusion

/-- Injectivity of an ok pair result, split into its components. -/
theorem okPairInj {ε α β : Type} {x r : α} {l t : β}
    (h : (Except.ok (x, l) : Except ε (α × β)) = .ok (r, t)) : x = r ∧ l = t := by
  cases h
  exact ⟨rfl, rfl⟩

/-- Exhaustive case analysis of the TCP fallback chain outcome: one disjunct
per control path of the orchestrator (legacy CONNFAIL stops; beta runs after
TIMEOUT or UNKNOWN and its CONNFAIL stops; extended legacy runs unless the
running result is CONNFAIL and overwrites it; json runs last, its status
discarded). -/
theorem tcpChain_cases (env : Env) (r : ConnStatus) (tr : List Codec)
    (h : tcpChain env = .ok (r, tr)) :
    ∃ r2, legacyStatusE env.legacy = .ok r2 ∧
      ((r2 = .CONNFAIL ∧ r = .CONNFAIL ∧ tr = [Codec.bedrock, Codec.legacy])
      ∨ (∃ r3, (r2 = .TIMEOUT ∨ r2 = .UNKNOWN) ∧ betaStatusE env.beta = .ok r3
          ∧ r3 = .CONNFAIL ∧ r = .CONNFAIL ∧ tr = [Codec.bedrock, Codec.legacy, Codec.beta])
      ∨ (∃ r3 r4, (r2 = .TIMEOUT ∨ r2 = .UNKNOWN) ∧ betaStatusE env.beta = .ok r3
          ∧ r3 ≠ .CONNFAIL ∧ extLegacyStatusE env.extLegacy = .ok r4 ∧ r4 = .CONNFAIL
          ∧ r = .CONNFAIL
          ∧ tr = [Codec.bedrock, Codec.legacy, Codec.beta, Codec.extLegacy])
      ∨ (∃ r3 r4 rj, (r2 = .TIMEOUT ∨ r2 = .UNKNOWN) ∧ betaStatusE env.beta = .ok r3
          ∧ r3 ≠ .CONNFAIL ∧ extLegacyStatusE env.extLegacy = .ok r4 ∧ r4 ≠ .CONNFAIL
          ∧ jsonStatusE env.json = .ok rj ∧ r = r4
          ∧ tr = [Codec.bedrock, Codec.legacy, Codec.beta, Codec.extLegacy, Codec.json])
      ∨ (r2 = .SUCCESS ∧ ∃ r4, extLegacyStatusE env.extLegacy = .ok r4 ∧ r4 = .CONNFAIL
          ∧ r = .CONNFAIL ∧ tr = [Codec.bedrock, Codec.legacy, Codec.extLegacy])
      ∨ (r2 = .SUCCESS ∧ ∃ r4 rj, extLegacyStatusE env.extLegacy = .ok r4 ∧ r4 ≠ .CONNFAIL
          ∧ jsonStatusE env.json = .ok rj ∧ r = r4
          ∧ tr = [Codec.bedrock, Codec.legacy, Codec.extLegacy, Codec.json])) := by
  unfold tcpChain at h
  rcases hl1 : legacyStatusE env.legacy with e | r2
  · rw [hl1] at h
    exact Except.noConfusion h
  · rw [hl1] at h
    dsimp only at h
    refine ⟨r2, rfl, ?_⟩
    cases r2
    case CONNFAIL =>
      rw [if_neg (by simp)] at h
      dsimp only at h
      rw [if_neg (by simp)] at h
      dsimp only at h
      obtain ⟨hr', htr'⟩ := okPairInj h
      exact Or.inl ⟨rfl, hr'.symm, htr'.symm⟩
    case SUCCESS =>
      rw [if_neg (by simp)] at h
      dsimp only at h
      rw [if_pos (by simp)] at h
      rcases he : extLegacyStatusE env.extLegacy with e | r4
      · rw [he] at h
        exact Except.noConfusion h
      · rw [he] at h
        dsimp only [Except.map] at h
        by_cases hc4 : r4 ≠ ConnStatus.CONNFAIL
        · rw [if_pos hc4] at h
          rcases hj : jsonStatusE env.json with e | rj
          · rw [hj] at h
            exact Except.noConfusion h
          · rw [hj] at h
            dsimp only [Except.map] at h
            obtain ⟨hr', htr'⟩ := okPairInj h
            exact Or.inr (Or.inr (Or.inr (Or.inr (Or.inr
              ⟨rfl, r4, rj, rfl, hc4, rfl, hr'.symm, htr'.symm⟩))))
        · rw [if_neg hc4] at h
          dsimp only at h
          obtain ⟨hr', htr'⟩ := okPairInj h
          have hr4 : r4 = ConnStatus.CONNFAIL := by
            by_contra hcon
            exact hc4 hcon
          exact Or.inr (Or.inr (Or.inr (Or.inr (Or.inl
            ⟨rfl, r4, rfl, hr4, hr4 ▸ hr'.symm, htr'.symm⟩))))
    case TIMEOUT =>
      rw [if_pos (by simp)] at h
      rcases hb2 : betaStatusE env.beta with e | r3
      · rw [hb2] at h
        exact Except.noConfusion h
      · rw [hb2] at h
        dsimp only [Except.map] at h
        by_cases hc3 : r3 ≠ ConnStatus.CONNFAIL
        · rw [if_pos hc3] at h
          rcases he : extLegacyStatusE env.extLegacy with e | r4
          · rw [he] at h
            exact Except.noConfusion h
          · rw [he] at h
            dsimp only [Except.map] at h
            by_cases hc4 : r4 ≠ ConnStatus.CONNFAIL
            · rw [if_pos hc4] at h
              rcases hj : jsonStatusE env.json with e | rj
              · rw [hj] at h
                exact Except.noConfusion h
              · rw [hj] at h
                dsimp only [Except.map] at h
                obtain ⟨hr', htr'⟩ := okPairInj h
                exact Or.inr (Or.inr (Or.inr (Or.inl
                  ⟨r3, r4, rj, Or.inl rfl, rfl, hc3, rfl, hc4, rfl, hr'.symm, htr'.symm⟩)))
            · rw [if_neg hc4] at h
              dsimp only at h
              obtain ⟨hr', htr'⟩ := okPairInj h
              have hr4 : r4 = ConnStatus.CONNFAIL := by
                by_contra hcon
                exact hc4 hcon
              exact Or.inr (Or.inr (Or.inl
                ⟨r3, r4, Or.inl rfl, rfl, hc3, rfl, hr4, hr4 ▸ hr'.symm, htr'.symm⟩))
        · rw [if_neg hc3] at h
          dsimp only at h
          rw [if_neg hc3] at h
          dsimp only at h
          obtain ⟨hr', htr'⟩ := okPairInj h
          have hr3 : r3 = ConnStatus.CONNFAIL := by
            by_contra hcon
            exact hc3 hcon
          exact Or.inr (Or.inl ⟨r3, Or.inl rfl, rfl, hr3, hr3 ▸ hr'.symm, htr'.symm⟩)
    case UNKNOWN =>
      rw [if_pos (by simp)] at h
      rcases hb2 : betaStatusE env.beta with e | r3
      · rw [hb2] at h
        exact Except.noConfusion h
      · rw [hb2] at h
        dsimp only [Except.map] at h
        by_cases hc3 : r3 ≠ ConnStatus.CONNFAIL
        · rw [if_pos hc3] at h
          rcases he : extLegacyStatusE env.extLegacy with e | r4
          · rw [he] at h
            exact Except.noConfusion h
          · rw [he] at h
            dsimp only [Except.map] at h
            by_cases hc4 : r4 ≠ ConnStatus.CONNFAIL
            · rw [if_pos hc4] at h
              rcases hj : jsonStatusE env.json with e | rj
              · rw [hj] at h
                exact Except.noConfusion h
              · rw [hj] at h
                dsimp only [Except.map] at h
                obtain ⟨hr', htr'⟩ := okPairInj h
                exact Or.inr (Or.inr (Or.inr (Or.inl
                  ⟨r3, r4, rj, Or.inr rfl, rfl, hc3, rfl, hc4, rfl, hr'.symm, htr'.symm⟩)))
            · rw [if_neg hc4] at h
              dsimp only at h
              obtain ⟨hr', htr'⟩ := okPairInj h
              have hr4 : r4 = ConnStatus.CONNFAIL := by
                by_contra hcon
                exact hc4 hcon
              exact Or.inr (Or.inr (Or.inl
                ⟨r3, r4, Or.inr rfl, rfl, hc3, rfl, hr4, hr4 ▸ hr'.symm, htr'.symm⟩))
        · rw [if_neg hc3] at h
          dsimp only at h
          rw [if_neg hc3] at h
          dsimp only at h
          obtain ⟨hr', htr'⟩ := okPairInj h
          have hr3 : r3 = ConnStatus.CONNFAIL := by
            by_contra hcon
            exact hc3 hcon
          exact Or.inr (Or.inl ⟨r3, Or.inr rfl, rfl, hr3, hr3 ▸ hr'.symm, htr'.symm⟩)

/-- C6 (amended): the orchestrator stops after the Bedrock codec exactly when
Bedrock returns SUCCESS; on the TCP chain a SUCCESS does not stop the chain:
when Legacy returns SUCCESS, Beta is skipped but Extended-Legacy is still
invoked (the claim that no further codec ever runs after a SUCCESS fails;
see the counterexample). -/
theorem c6_first_success (a : String) (p t : Nat) (env : Env)
    (st : MineStat) (tr : List Codec)
    (h : minestat a p t .ALL env = .ok (st, tr)) :
    (tr = [Codec.bedrock] ↔ bedrockStatusE env.bedrock = .ok ConnStatus.SUCCESS)
    ∧ (bedrockStatusE env.bedrock ≠ .ok ConnStatus.SUCCESS →
        legacyStatusE env.legacy = .ok ConnStatus.SUCCESS →
        Codec.beta ∉ tr ∧ Codec.extLegacy ∈ tr) := by
  obtain ⟨r, har, _, _⟩ := minestat_all_run a p t env st tr h
  unfold allResult at har
  rcases hb1 : bedrockStatusE env.bedrock with e | r1
  · rw [hb1] at har
    exact Except.noConfusion har
  · rw [hb1] at har
    dsimp only at har
    by_cases hr1 : r1 = ConnStatus.SUCCESS
    · rw [if_pos hr1] at har
      obtain ⟨_, htr⟩ := okPairInj har
      subst hr1
      refine ⟨⟨fun _ => rfl, fun _ => htr.symm⟩, fun hne => absurd rfl hne⟩
    · rw [if_neg hr1] at har
      obtain ⟨r2, hl2, hcases⟩ := tcpChain_cases env r tr har
      have hne : ¬((Except.ok r1 : Except PyExn ConnStatus) = Except.ok ConnStatus.SUCCESS) := by
        intro hx
        exact hr1 (Except.ok.inj hx)
      rcases hcases with ⟨hr2, hr, htr⟩ | ⟨r3, htu, hbeta, hr3, hr, htr⟩
        | ⟨r3, r4, htu, hbeta, hc3, hext, hr4, hr, htr⟩
        | ⟨r3, r4, rj, htu, hbeta, hc3, hext, hc4, hjson, hr, htr⟩
        | ⟨hr2, r4, hext, hr4, hr, htr⟩
        | ⟨hr2, r4, rj, hext, hc4, hjson, hr, htr⟩
      · refine ⟨⟨fun hx => ?_, fun hx => absurd hx hne⟩, fun _ hx => ?_⟩
        · rw [htr] at hx
          exact absurd hx (by decide)
        · rw [hl2, hr2] at hx
          exact absurd (Except.ok.inj hx) (by decide)
      · refine ⟨⟨fun hx => ?_, fun hx => absurd hx hne⟩, fun _ hx => ?_⟩
        · rw [htr] at hx
          exact absurd hx (by decide)
        · rw [hl2] at hx
          rcases htu with hv | hv <;>
            (rw [hv] at hx; exact absurd (Except.ok.inj hx) (by decide))
      · refine ⟨⟨fun hx => ?_, fun hx => absurd hx hne⟩, fun _ hx => ?_⟩
        · rw [htr] at hx
          exact absurd hx (by decide)
        · rw [hl2] at hx
          rcases htu with hv | hv <;>
            (rw [hv] at hx; exact absurd (Except.ok.inj hx) (by decide))
      · refine ⟨⟨fun hx => ?_, fun hx => absurd hx hne⟩, fun _ hx => ?_⟩
        · rw [htr] at hx
          exact absurd hx (by decide)
        · rw [hl2] at hx
          rcases htu with hv | hv <;>
            (rw [hv] at hx; exact absurd (Except.ok.inj hx) (by decide))
      · refine ⟨⟨fun hx => ?_, fun hx => absurd hx hne⟩, fun _ _ => ?_⟩
        · rw [htr] at hx
          exact absurd hx (by decide)
        · rw [htr]
          exact ⟨by decide, by decide⟩
      · refine ⟨⟨fun hx => ?_, fun hx => absurd hx hne⟩, fun _ _ => ?_⟩
        · rw [htr] at hx
          exact absurd hx (by decide)
        · rw [htr]
          exact ⟨by decide, by decide⟩

/-- C2 (amended): under ALL mode, the final connection status is the result
of the last codec whose result is recorded, which is never the JSON codec:
whenever Extended-Legacy was invoked the final status equals the
Extended-Legacy result even if JSON runs afterwards (JSON's return value is
discarded by the source, line 248); when Extended-Legacy was not invoked the
chain stopped on a CONNFAIL, which is the final status.  The claim that the
final status equals the last-attempted codec result (in particular JSON's)
fails; see the counterexample. -/
theorem c2_last_recorded (a : String) (p t : Nat) (env : Env)
    (st : MineStat) (tr : List Codec)
    (h : minestat a p t .ALL env = .ok (st, tr))
    (hb : bedrockStatusE env.bedrock ≠ .ok ConnStatus.SUCCESS) :
    (Codec.extLegacy ∈ tr →
      ∃ r4, extLegacyStatusE env.extLegacy = .ok r4 ∧ st.connection_status = some r4)
    ∧ (Codec.extLegacy ∉ tr → st.connection_status = some ConnStatus.CONNFAIL) := by
  obtain ⟨r, har, hcs, _⟩ := minestat_all_run a p t env st tr h
  unfold allResult at har
  rcases hb1 : bedrockStatusE env.bedrock with e | r1
  · rw [hb1] at har
    exact Except.noConfusion har
  · rw [hb1] at har
    dsimp only at har
    have hr1 : ¬(r1 = ConnStatus.SUCCESS) := by
      intro hx
      rw [hb1, hx] at hb
      exact hb rfl
    rw [if_neg hr1] at har
    obtain ⟨r2, hl2, hcases⟩ := tcpChain_cases env r tr har
    rcases hcases with ⟨hr2, hr, htr⟩ | ⟨r3, htu, hbeta, hr3, hr, htr⟩
      | ⟨r3, r4, htu, hbeta, hc3, hext, hr4, hr, htr⟩
      | ⟨r3, r4, rj, htu, hbeta, hc3, hext, hc4, hjson, hr, htr⟩
      | ⟨hr2, r4, hext, hr4, hr, htr⟩
      | ⟨hr2, r4, rj, hext, hc4, hjson, hr, htr⟩
    · refine ⟨fun hm => ?_, fun _ => ?_⟩
      · rw [htr] at hm
        exact absurd hm (by decide)
      · rw [hcs, hr]
    · refine ⟨fun hm => ?_, fun _ => ?_⟩
      · rw [htr] at hm
        exact absurd hm (by decide)
      · rw [hcs, hr]
    · refine ⟨fun _ => ⟨r4, hext, ?_⟩, fun hm => absurd (htr ▸ (by decide)) hm⟩
      rw [hcs, hr, hr4]
    · refine ⟨fun _ => ⟨r4, hext, ?_⟩, fun hm => absurd (htr ▸ (by decide)) hm⟩
      rw [hcs, hr]
    · refine ⟨fun _ => ⟨r4, hext, ?_⟩, fun hm => absurd (htr ▸ (by decide)) hm⟩
      rw [hcs, hr, hr4]
    · refine ⟨fun _ => ⟨r4, hext, ?_⟩, fun hm => absurd (htr ▸ (by decide)) hm⟩
      rw [hcs, hr]

/-- C5 (amended): on the TCP chain a CONNFAIL from Legacy, Beta or
Extended-Legacy aborts the remaining chain immediately and becomes the final
connection status, while a TIMEOUT or UNKNOWN lets the next codec run; a
CONNFAIL from the JSON codec, however, never becomes the final status,
because the source discards the JSON result (the unrestricted claim fails on
the JSON codec; see the counterexample). -/
theorem c5_connfail_aborts (a : String) (p t : Nat) (env : Env)
    (st : MineStat) (tr : List Codec)
    (h : minestat a p t .ALL env = .ok (st, tr))
    (hb : bedrockStatusE env.bedrock ≠ .ok ConnStatus.SUCCESS) :
    (legacyStatusE env.legacy = .ok ConnStatus.CONNFAIL →
      tr = [Codec.bedrock, Codec.legacy] ∧ st.connection_status = some ConnStatus.CONNFAIL)
    ∧ ((legacyStatusE env.legacy = .ok ConnStatus.TIMEOUT
        ∨ legacyStatusE env.legacy = .ok ConnStatus.UNKNOWN) → Codec.beta ∈ tr)
    ∧ (betaStatusE env.beta = .ok ConnStatus.CONNFAIL → Codec.beta ∈ tr →
      tr = [Codec.bedrock, Codec.legacy, Codec.beta]
        ∧ st.connection_status = some ConnStatus.CONNFAIL)
    ∧ ((betaStatusE env.beta = .ok ConnStatus.TIMEOUT
        ∨ betaStatusE env.beta = .ok ConnStatus.UNKNOWN) → Codec.beta ∈ tr →
      Codec.extLegacy ∈ tr)
    ∧ (extLegacyStatusE env.extLegacy = .ok ConnStatus.CONNFAIL → Codec.extLegacy ∈ tr →
      Codec.json ∉ tr ∧ st.connection_status = some ConnStatus.CONNFAIL)
    ∧ ((extLegacyStatusE env.extLegacy = .ok ConnStatus.TIMEOUT
        ∨ extLegacyStatusE env.extLegacy = .ok ConnStatus.UNKNOWN) → Codec.extLegacy ∈ tr →
      Codec.json ∈ tr) := by
  obtain ⟨r, har, hcs, _⟩ := minestat_all_run a p t env st tr h
  unfold allResult at har
  rcases hb1 : bedrockStatusE env.bedrock with e | r1
  · rw [hb1] at har
    exact Except.noConfusion har
  · rw [hb1] at har
    dsimp only at har
    have hr1 : ¬(r1 = ConnStatus.SUCCESS) := by
      intro hx
      rw [hb1, hx] at hb
      exact hb rfl
    rw [if_neg hr1] at har
    obtain ⟨r2, hl2, hcases⟩ := tcpChain_cases env r tr har
    rcases hcases with ⟨hr2, hr, htr⟩ | ⟨r3, htu, hbeta, hr3, hr, htr⟩
      | ⟨r3, r4, htu, hbeta, hc3, hext, hr4, hr, htr⟩
      | ⟨r3, r4, rj, htu, hbeta, hc3, hext, hc4, hjson, hr, htr⟩
      | ⟨hr2, r4, hext, hr4, hr, htr⟩
      | ⟨hr2, r4, rj, hext, hc4, hjson, hr, htr⟩ <;>
    subst htr <;> subst hr <;>
    refine ⟨fun hx => ?_, fun hx => ?_, fun hx hm => ?_, fun hx hm => ?_,
            fun hx hm => ?_, fun hx hm => ?_⟩
    -- disjunct 1: legacy CONNFAIL
    · exact ⟨rfl, hcs⟩
    · rcases hx with hv | hv <;>
        (rw [hl2] at hv; exact absurd (Except.ok.inj hv) (by subst hr2; decide))
    · exact absurd hm (by decide)
    · exact absurd hm (by decide)
    · exact absurd hm (by decide)
    · exact absurd hm (by decide)
    -- disjunct 2: beta ran and returned CONNFAIL
    · rw [hl2] at hx
      rcases htu with hv | hv <;> subst hv <;> exact absurd (Except.ok.inj hx) (by decide)
    · exact by decide
    · exact ⟨rfl, hcs⟩
    · rcases hx with hv | hv <;>
        (rw [hbeta] at hv; exact absurd (Except.ok.inj hv) (by subst hr3; decide))
    · exact absurd hm (by decide)
    · exact absurd hm (by decide)
    -- disjunct 3: beta continued, extended legacy returned CONNFAIL
    · rw [hl2] at hx
      rcases htu with hv | hv <;> subst hv <;> exact absurd (Except.ok.inj hx) (by decide)
    · exact by decide
    · rw [hbeta] at hx
      exact absurd (Except.ok.inj hx) hc3
    · exact by decide
    · subst hr4
      exact ⟨by decide, hcs⟩
    · rcases hx with hv | hv <;>
        (rw [hext] at hv; exact absurd (Except.ok.inj hv) (by subst hr4; decide))
    -- disjunct 4: full chain including json
    · rw [hl2] at hx
      rcases htu with hv | hv <;> subst hv <;> exact absurd (Except.ok.inj hx) (by decide)
    · exact by decide
    · rw [hbeta] at hx
      exact absurd (Except.ok.inj hx) hc3
    · exact by decide
    · rw [hext] at hx
      exact absurd (Except.ok.inj hx) hc4
    · exact by decide
    -- disjunct 5: legacy SUCCESS, extended legacy CONNFAIL
    · rw [hl2] at hx
      exact absurd (Except.ok.inj hx) (by subst hr2; decide)
    · rcases hx with hv | hv <;>
        (rw [hl2] at hv; exact absurd (Except.ok.inj hv) (by subst hr2; decide))
    · exact absurd hm (by decide)
    · exact absurd hm (by decide)
    · subst hr4
      exact ⟨by decide, hcs⟩
    · rcases hx with hv | hv <;>
        (rw [hext] at hv; exact absurd (Except.ok.inj hv) (by subst hr4; decide))
    -- disjunct 6: legacy SUCCESS, extended legacy continued, json ran
    · rw [hl2] at hx
      exact absurd (Except.ok.inj hx) (by subst hr2; decide)
    · rcases hx with hv | hv <;>
        (rw [hl2] at hv; exact absurd (Except.ok.inj hv) (by subst hr2; decide))
    · exact absurd hm (by decide)
    · exact absurd hm (by decide)
    · rw [hext] at hx
      exact absurd (Except.ok.inj hx) hc4
    · exact by decide

/-- Helper for the single-protocol branches: a record whose stored status is
the codec result and whose online flag records exactly whether that result
was SUCCESS satisfies both directions of the online/status relation. -/
theorem singleAssemble (stF : MineStat) {r : ConnStatus}
    (hcs : stF.connection_status = some r)
    (ho : stF.online = decide (r = ConnStatus.SUCCESS)) :
    (stF.connection_status = some ConnStatus.SUCCESS → stF.online = true)
    ∧ (stF.online = true ↔ stF.connection_status = some ConnStatus.SUCCESS) := by
  have hdir : stF.online = true ↔ stF.connection_status = some ConnStatus.SUCCESS := by
    constructor
    · intro h1
      rw [ho] at h1
      have hr := of_decide_eq_true h1
      rw [hcs, hr]
    · intro hs
      rw [hcs] at hs
      have hr := Option.some.inj hs
      rw [ho, hr]
      simp
  exact ⟨hdir.2, hdir⟩

/-- C1 (amended): for every completed query, connection_status == SUCCESS
implies online == true; in single-protocol mode the two are equivalent.  In
ALL mode the converse fails: an earlier codec can succeed and set online
while a later recorded codec failure leaves connection_status not SUCCESS
(see the counterexample). -/
theorem c1_online_success (qp : SlpProtocols) (a : String) (p t : Nat) (env : Env)
    (st : MineStat) (tr : List Codec)
    (h : minestat a p t qp env = .ok (st, tr)) :
    (st.connection_status = some ConnStatus.SUCCESS → st.online = true)
    ∧ (qp ≠ SlpProtocols.ALL →
        (st.online = true ↔ st.connection_status = some ConnStatus.SUCCESS)) := by
  cases qp
  case ALL =>
    obtain ⟨r, _, hcs, honl⟩ := minestat_all_run a p t env st tr h
    refine ⟨?_, fun hne => absurd rfl hne⟩
    intro hs
    rw [hcs] at hs
    exact honl (Option.some.inj hs)
  case BETA =>
    unfold minestat at h
    dsimp only at h
    split at h
    · exact Except.noConfusion h
    · rename_i st' r heq
      cases h
      have ho : ({ st' with connection_status := some r } : MineStat).online
          = decide (r = ConnStatus.SUCCESS) := by
        have hq := beta_query_online heq
        simpa [initState] using hq
      have hres := singleAssemble { st' with connection_status := some r } rfl ho
      exact ⟨hres.1, fun _ => hres.2⟩
  case LEGACY =>
    unfold minestat at h
    dsimp only at h
    split at h
    · exact Except.noConfusion h
    · rename_i st' r heq
      cases h
      have ho : ({ st' with connection_status := some r } : MineStat).online
          = decide (r = ConnStatus.SUCCESS) := by
        have hq := legacy_query_online heq
        simpa [initState] using hq
      have hres := singleAssemble { st' with connection_status := some r } rfl ho
      exact ⟨hres.1, fun _ => hres.2⟩
  case EXTENDED_LEGACY =>
    unfold minestat at h
    dsimp only at h
    split at h
    · exact Except.noConfusion h
    · rename_i st' r heq
      cases h
      have ho : ({ st' with connection_status := some r } : MineStat).online
          = decide (r = ConnStatus.SUCCESS) := by
        have hq := extended_legacy_query_online heq
        simpa [initState] using hq
      have hres := singleAssemble { st' with connection_status := some r } rfl ho
      exact ⟨hres.1, fun _ => hres.2⟩
  case JSON =>
    unfold minestat at h
    dsimp only at h
    split at h
    · exact Except.noConfusion h
    · rename_i st' r heq
      cases h
      have ho : ({ st' with connection_status := some r } : MineStat).online
          = decide (r = ConnStatus.SUCCESS) := by
        have hq := json_query_online heq
        simpa [initState] using hq
      have hres := singleAssemble { st' with connection_status := some r } rfl ho
      exact ⟨hres.1, fun _ => hres.2⟩
  case BEDROCK_RAKNET =>
    unfold minestat at h
    dsimp only at h
    split at h
    · exact Except.noConfusion h
    · rename_i st' r heq
      cases h
      have ho : ({ st' with connection_status := some r } : MineStat).online
          = decide (r = ConnStatus.SUCCESS) := by
        have hq := bedrock_raknet_query_online heq
        simpa [initState] using hq
      have hres := singleAssemble { st' with connection_status := some r } rfl ho
      exact ⟨hres.1, fun _ => hres.2⟩

/-- Environment for the C1 counterexample: Bedrock cannot connect, Legacy
succeeds with a full frame, Extended-Legacy answers with a wrong packet id,
JSON answers with a too-short packet. -/
def envC1 : Env :=
  { idleEnv with
    bedrock := { connect := .osError, resp := .err .timeout }
    legacy := { connect := .ok 4, header := .ok 24,
                payload := .ok "§1\x0047\x001.4.2\x00A Server\x0012\x0020" }
    extLegacy := { connect := .ok 4, packetId := .ok 0xFE, payloadLen := .err .timeout,
                   payload := .err .timeout }
    json := { connect := .ok 4, packetLen := .ok 1, packetId := .ok 0, contentLen := .ok 0,
              payload := .ok none } }

/-- Counterexample for C1 as stated: a completed ALL-mode query whose record
has online true (Legacy succeeded) while connection_status is UNKNOWN (the
later Extended-Legacy attempt overwrote the running result). -/
theorem c1_counterexample :
    (minestat "localhost" 25565 5 .ALL envC1).map
        (fun q => (q.1.online, q.1.connection_status))
      = .ok (true, some ConnStatus.UNKNOWN) := rfl

/-- Witness environment for C1: a single-protocol Legacy query that
succeeds. -/
def envW1 : Env :=
  { idleEnv with
    legacy := { connect := .ok 7, header := .ok 24,
                payload := .ok "§1\x0047\x001.4.2\x00Hi\x005\x0016" } }

/-- The record the witness query produces. -/
def stW1 : MineStat :=
  { address := "h", port := 25565, online := true, version := some "1.4.2",
    motd := some "Hi", stripped_motd := some "Hi", current_players := some 5,
    max_players := some 16, latency := some 7, timeout := 5,
    slp_protocol := some .LEGACY, favicon_b64 := none, favicon := none,
    gamemode := none, connection_status := some .SUCCESS }

/-- Witness for C1 at a concrete single-protocol query. -/
theorem c1_witness :
    stW1.online = true ↔ stW1.connection_status = some ConnStatus.SUCCESS :=
  (c1_online_success .LEGACY "h" 0 5 envW1 stW1 [Codec.legacy] rfl).2 (by decide)

/-- Environment for the C2 counterexample: Bedrock cannot connect, the three
recorded TCP codecs return UNKNOWN, and JSON (the last codec attempted)
succeeds with a full modern response. -/
def envC2 : Env :=
  { idleEnv with
    bedrock := { connect := .osError, resp := .err .timeout }
    legacy := { connect := .ok 9, header := .err .aborted, payload := .err .timeout }
    beta := { connect := .ok 9, header := .err .aborted, payload := .err .timeout }
    extLegacy := { connect := .ok 9, packetId := .ok 0xFE, payloadLen := .err .timeout,
                   payload := .err .timeout }
    json := { connect := .ok 9, packetLen := .ok 90, packetId := .ok 0, contentLen := .ok 88,
              payload := .ok (some { versionName := some "1.20.1",
                                     description := some "A Server",
                                     playersMax := some 20, playersOnline := some 3,
                                     faviconVal := none }) } }

/-- Counterexample for C2 as stated: JSON is the last codec actually invoked
and returns SUCCESS, yet the final connection_status is UNKNOWN, because the
source discards the JSON result. -/
theorem c2_counterexample :
    (minestat "localhost" 25565 5 .ALL envC2).map
        (fun q => (q.1.connection_status, q.2))
      = .ok (some ConnStatus.UNKNOWN,
             [Codec.bedrock, Codec.legacy, Codec.beta, Codec.extLegacy, Codec.json])
    ∧ jsonStatusE envC2.json = .ok ConnStatus.SUCCESS :=
  ⟨rfl, rfl⟩

/-- Witness environment for C2: Bedrock unreachable, Legacy UNKNOWN, Beta
UNKNOWN, Extended-Legacy times out, JSON succeeds. -/
def envW2 : Env :=
  { idleEnv with
    bedrock := { connect := .osError, resp := .err .timeout }
    legacy := { connect := .ok 2, header := .err .aborted, payload := .err .timeout }
    beta := { connect := .ok 2, header := .err .aborted, payload := .err .timeout }
    extLegacy := { connect := .timeout, packetId := .err .timeout,
                   payloadLen := .err .timeout, payload := .err .timeout }
    json := { connect := .ok 2, packetLen := .ok 90, packetId := .ok 0, contentLen := .ok 88,
              payload := .ok (some { versionName := some "1.20.1",
                                     description := some "B Server",
                                     playersMax := some 10, playersOnline := some 1,
                                     faviconVal := none }) } }

/-- The record the C2 witness query produces. -/
def stW2 : MineStat :=
  { address := "h", port := 25565, online := true, version := some "1.20.1",
    motd := some "B Server", stripped_motd := some "B Server",
    current_players := some 1, max_players := some 10, latency := some 2, timeout := 5,
    slp_protocol := some .JSON, favicon_b64 := none, favicon := none,
    gamemode := none, connection_status := some .TIMEOUT }

/-- Witness for C2 at a concrete environment: Extended-Legacy was invoked
(and timed out), so the final status is the Extended-Legacy result TIMEOUT,
not the SUCCESS that the later JSON attempt returned. -/
theorem c2_witness :
    ∃ r4, extLegacyStatusE envW2.extLegacy = .ok r4 ∧ stW2.connection_status = some r4 :=
  (c2_last_recorded "h" 0 5 envW2 stW2
      [Codec.bedrock, Codec.legacy, Codec.beta, Codec.extLegacy, Codec.json]
      rfl (by decide)).1 (by decide)

/-- Environment for the C5 counterexample: every recorded codec returns
UNKNOWN and the JSON connect fails with an OSError, a CONNFAIL. -/
def envC5 : Env :=
  { idleEnv with
    bedrock := { connect := .osError, resp := .err .timeout }
    legacy := { connect := .ok 3, header := .err .aborted, payload := .err .timeout }
    beta := { connect := .ok 3, header := .err .aborted, payload := .err .timeout }
    extLegacy := { connect := .ok 3, packetId := .ok 0xFE, payloadLen := .err .timeout,
                   payload := .err .timeout }
    json := { connect := .osError, packetLen := .err .timeout, packetId := .err .timeout,
              contentLen := .err .timeout, payload := .err .timeout } }

/-- Counterexample for C5 as stated: the JSON codec, a TCP-chain codec,
returns CONNFAIL, yet the final connection_status is UNKNOWN, because the
source discards the JSON result. -/
theorem c5_counterexample :
    (minestat "localhost" 25565 5 .ALL envC5).map
        (fun q => (q.1.connection_status, q.2))
      = .ok (some ConnStatus.UNKNOWN,
             [Codec.bedrock, Codec.legacy, Codec.beta, Codec.extLegacy, Codec.json])
    ∧ jsonStatusE envC5.json = .ok ConnStatus.CONNFAIL :=
  ⟨rfl, rfl⟩

/-- Witness environment for C5: Bedrock answers garbage (UNKNOWN) and the
Legacy connect is refused (CONNFAIL). -/
def envW5 : Env :=
  { idleEnv with
    bedrock := { connect := .ok 3, resp := .err .aborted }
    legacy := { connect := .osError, header := .err .timeout, payload := .err .timeout } }

/-- The record the C5 witness query produces. -/
def stW5 : MineStat :=
  { address := "h", port := 25565, online := false, version := none,
    motd := none, stripped_motd := none, current_players := none,
    max_players := none, latency := some 3, timeout := 5,
    slp_protocol := none, favicon_b64 := none, favicon := none,
    gamemode := none, connection_status := some .CONNFAIL }

/-- Witness for C5 at a concrete environment: the Legacy CONNFAIL stops the
chain after two attempts and becomes the final status. -/
theorem c5_witness :
    [Codec.bedrock, Codec.legacy] = [Codec.bedrock, Codec.legacy]
    ∧ stW5.connection_status = some ConnStatus.CONNFAIL :=
  (c5_connfail_aborts "h" 0 5 envW5 stW5 [Codec.bedrock, Codec.legacy]
      rfl (by decide)).1 (by decide)

/-- Environment for the C6 counterexample: Bedrock answers garbage, Legacy
succeeds with a full frame, and the chain nevertheless goes on to invoke
Extended-Legacy and JSON. -/
def envC6 : Env :=
  { idleEnv with
    bedrock := { connect := .ok 3, resp := .err .aborted }
    legacy := { connect := .ok 5, header := .ok 24,
                payload := .ok "§1\x0047\x001.4.2\x00A Server\x0012\x0020" }
    extLegacy := { connect := .ok 5, packetId := .ok 0xFE, payloadLen := .err .timeout,
                   payload := .err .timeout }
    json := { connect := .ok 5, packetLen := .ok 1, packetId := .ok 0, contentLen := .ok 0,
              payload := .ok none } }

/-- Counterexample for C6 as stated: the Legacy codec returns SUCCESS, yet
two further codecs (Extended-Legacy and JSON) are invoked afterwards. -/
theorem c6_counterexample :
    legacyStatusE envC6.legacy = .ok ConnStatus.SUCCESS
    ∧ (minestat "localhost" 25565 5 .ALL envC6).map (fun q => q.2)
      = .ok [Codec.bedrock, Codec.legacy, Codec.extLegacy, Codec.json] :=
  ⟨rfl, rfl⟩

/-- Witness environment for C6: like the counterexample environment but with
distinct latencies and a fixed port. -/
def envW6 : Env :=
  { idleEnv with
    bedrock := { connect := .ok 2, resp := .err .aborted }
    legacy := { connect := .ok 4, header := .ok 24,
                payload := .ok "§1\x0047\x001.4.2\x00A Server\x0012\x0020" }
    extLegacy := { connect := .ok 6, packetId := .ok 0xFE, payloadLen := .err .timeout,
                   payload := .err .timeout }
    json := { connect := .ok 8, packetLen := .ok 1, packetId := .ok 0, contentLen := .ok 0,
              payload := .ok none } }

/-- The record the C6 witness query produces. -/
def stW6 : MineStat :=
  { address := "h", port := 25565, online := true, version := some "1.4.2",
    motd := some "A Server", stripped_motd := some "A Server",
    current_players := some 12, max_players := some 20, latency := some 8, timeout := 5,
    slp_protocol := some .LEGACY, favicon_b64 := none, favicon := none,
    gamemode := none, connection_status := some .UNKNOWN }

/-- Witness for C6 at a concrete environment: after the Legacy SUCCESS, Beta
is skipped while Extended-Legacy is still invoked. -/
theorem c6_witness :
    Codec.beta ∉ [Codec.bedrock, Codec.legacy, Codec.extLegacy, Codec.json]
    ∧ Codec.extLegacy ∈ [Codec.bedrock, Codec.legacy, Codec.extLegacy, Codec.json] :=
  (c6_first_success "h" 25565 5 envW6 stW6
      [Codec.bedrock, Codec.legacy, Codec.extLegacy, Codec.json] rfl).2
    (by decide) (by decide)
